import Mathlib

/-
Verification development for the EPOS exoplanet-population core
(EPOS/classes.py and EPOS/population.py).

Shallow embedding conventions:
- numpy float arrays are embedded as `List ℚ` / `List (List ℚ)` (row-major,
  `indexing='ij'`): machine floats carry no claim-relevant rounding here, all
  claim-relevant identities are exact field identities;
- transcendental primitives (`np.log`, `np.log10`, `np.logspace`) cannot be
  carried into ℚ exactly, so they are abstracted into an explicit record of
  function parameters (`RealFuns`); every theorem is stated for an arbitrary
  such record, and concrete witnesses instantiate it with rational stand-ins;
- Python exceptions (KeyError / IndexError / ValueError / assert) become
  `Option` / `Except` results;
- in-place mutation of the `epos` object becomes explicit state values
  returned by each embedded method.
-/

deriving instance DecidableEq for Except

unseal Rat.add Rat.mul Rat.inv Rat.sub

/-- Shallow stand-ins for the numpy transcendental primitives used by the
source: `ln` for `np.log`, `log10` for `np.log10`, and `logspace5 a b` for
`np.logspace(np.log10 a, np.log10 b, 5)`. -/
structure RealFuns where
  ln : ℚ → ℚ
  log10 : ℚ → ℚ
  logspace5 : ℚ → ℚ → List ℚ

/-- Sum of a 2D array (`np.sum` of a matrix). -/
def matSum (M : List (List ℚ)) : ℚ := (M.map List.sum).sum

/-- Row sums: `np.sum(M, axis=1)` for an array indexed `[x, y]`. -/
def npSumAxis1 (M : List (List ℚ)) : List ℚ := M.map List.sum

/-- Column sums: `np.sum(M, axis=0)`; the column count is the length of the
first row, as for a rectangular numpy array. -/
def npSumAxis0 (M : List (List ℚ)) : List ℚ :=
  (List.range (M.headD []).length).map fun j => (M.map fun r => r.getD j 0).sum

/-- Row means: `np.average(M, axis=1)`. -/
def npAverageAxis1 (M : List (List ℚ)) : List ℚ :=
  M.map fun r => r.sum / (r.length : ℚ)

/-- Column means: `np.average(M, axis=0)`. -/
def npAverageAxis0 (M : List (List ℚ)) : List ℚ :=
  (List.range (M.headD []).length).map fun j =>
    (M.map fun r => r.getD j 0).sum / (M.length : ℚ)

/-- Mesh of two axes: `np.meshgrid(xs, ys, indexing='ij')`. -/
def npMeshgrid (xs ys : List ℚ) : List (List ℚ) × List (List ℚ) :=
  (xs.map fun x => ys.map fun _ => x, xs.map fun _ => ys)

/-- Python slice `l[i:j]` (for `0 ≤ i`, `0 ≤ j`). -/
def npSlice (l : List ℚ) (i j : ℕ) : List ℚ := (l.drop i).take (j - i)

/-- Option-valued map over a list, failing if any element fails
(used to embed Python list comprehensions whose body can raise). -/
def optMapList {α β : Type} (f : α → Option β) : List α → Option (List β)
  | [] => some []
  | a :: l =>
    match f a, optMapList f l with
    | some b, some bs => some (b :: bs)
    | _, _ => none

/-- One stored fit parameter: the inner dict of `fitparameters.fitpars[key]`.
The `pmin`/`pmax`/`dx` entries are only present when the parameter is not
fixed, and `value_fit` only after `setfit`; absence is `none`
(source: classes.py, `fitparameters.add`). -/
structure FitRecord where
  key : String
  value_init : ℚ
  fixed : Bool
  pmin : Option ℚ
  pmax : Option ℚ
  dx : Option ℚ
  value_fit : Option ℚ
  deriving DecidableEq

/-- The fit-parameter registry `fitparameters` (classes.py line 14): the
key-indexed store plus the three ordered key sequences. -/
structure fitparameters where
  fitpars : String → Option FitRecord
  keysall : List String
  keysfit : List String
  keys2d : List String

/-- The freshly constructed registry (`fitparameters.__init__`). -/
def fitparameters.empty : fitparameters :=
  { fitpars := fun _ => none, keysall := [], keysfit := [], keys2d := [] }

/-- Embeds `fitparameters.add` (classes.py lines 22-55).  A duplicate key
silently overwrites `fitpars[key]` with a fresh record and appends the key
again to the key sequences.  The Python defaults `min=-np.inf, max=np.inf`
are float infinities; bounds are caller-supplied here (no claim exercises the
infinite defaults). -/
def fitparameters.add (r : fitparameters) (key : String) (value : ℚ)
    (fixed : Bool) (pmin pmax : ℚ) (dx : Option ℚ) (is2D : Bool) :
    fitparameters :=
  let dx0 : ℚ := match dx with | none => 1/10 * value | some d => d
  let fp : FitRecord :=
    { key := key
      value_init := value
      fixed := fixed
      pmin := if fixed then none else some pmin
      pmax := if fixed then none else some pmax
      dx := if fixed then none else some (if dx0 ≠ 0 then |dx0| else 1/10)
      value_fit := none }
  { fitpars := fun k => if k = key then some fp else r.fitpars k
    keysall := r.keysall ++ [key]
    keysfit := if fixed then r.keysfit else r.keysfit ++ [key]
    keys2d := if is2D then r.keys2d ++ [key] else r.keys2d }

/-- Embeds `fitparameters.default` (classes.py lines 57-60): registers the
key as fixed only when absent. -/
def fitparameters.default (r : fitparameters) (key : String) (value : ℚ) :
    fitparameters :=
  if key ∈ r.keysall then r else r.add key value true 0 0 none false

/-- Embeds `fitparameters.set` (classes.py lines 62-63); `none` on a missing
key (Python `KeyError`). -/
def fitparameters.set (r : fitparameters) (key : String) (value : ℚ) :
    Option fitparameters :=
  match r.fitpars key with
  | none => none
  | some fr =>
    some { r with fitpars := fun k =>
      if k = key then some { fr with value_init := value } else r.fitpars k }

/-- Recursion of `fitparameters.setfit`: walk `keysfit` with the running
index into `mclist`; a missing record is a `KeyError`, a short `mclist` an
`IndexError` (both `none`). -/
def fitparameters.setfitGo (fp : String → Option FitRecord)
    (keys : List String) (i : ℕ) (mclist : List ℚ) :
    Option (String → Option FitRecord) :=
  match keys with
  | [] => some fp
  | k :: ks =>
    match fp k, mclist.get? i with
    | some fr, some v =>
      fitparameters.setfitGo
        (fun k' => if k' = k then some { fr with value_fit := some v } else fp k')
        ks (i + 1) mclist
    | _, _ => none

/-- Embeds `fitparameters.setfit` (classes.py lines 65-68): assigns
`mclist[i]` as the fitted value of the i-th free key. -/
def fitparameters.setfit (r : fitparameters) (mclist : List ℚ) :
    Option fitparameters :=
  (fitparameters.setfitGo r.fitpars r.keysfit 0 mclist).map
    fun fp => { r with fitpars := fp }

/-- Embeds `fitparameters.get` (classes.py lines 70-79), `attr=None` path:
the fitted value when present and `Init` is false, else the initial value. -/
def fitparameters.get (r : fitparameters) (key : String) (Init : Bool) :
    Option ℚ :=
  match r.fitpars key with
  | none => none
  | some fr =>
    some (if Init then fr.value_init
          else match fr.value_fit with
               | none => fr.value_init
               | some v => v)

/-- Embeds `fitparameters.get2d` (classes.py lines 81-83). -/
def fitparameters.get2d (r : fitparameters) (Init : Bool) : Option (List ℚ) :=
  optMapList (fun k => r.get k Init) r.keys2d

/-- Embeds `fitparameters.getfit` (classes.py lines 85-86), `attr=None`
path: the ordered free-parameter vector. -/
def fitparameters.getfit (r : fitparameters) (Init : Bool) : Option (List ℚ) :=
  optMapList (fun k => r.get k Init) r.keysfit

/-- Embeds `fitparameters.getmc` (classes.py lines 88-93): a fixed key reads
its initial value, a free key indexes `parlist` at its free-key position. -/
def fitparameters.getmc (r : fitparameters) (key : String) (parlist : List ℚ) :
    Option ℚ :=
  match r.fitpars key with
  | none => none
  | some fr =>
    if fr.fixed then some fr.value_init
    else (r.keysfit.findIdx? (fun s => s = key)).bind fun i => parlist.get? i

/-- Embeds `fitparameters.get2d_fromlist` (classes.py lines 98-108). -/
def fitparameters.get2d_fromlist (r : fitparameters) (parlist : List ℚ) :
    Option (List ℚ) :=
  optMapList
    (fun k =>
      match r.fitpars k with
      | none => none
      | some fr =>
        if fr.fixed then some fr.value_init
        else (r.keysfit.findIdx? (fun s => s = k)).bind fun i => parlist.get? i)
    r.keys2d

/-- Failure modes of `fitparameters.checkbounds`: the `ValueError('... out of
bounds ...')` with its interpolated data, or a `KeyError`/`IndexError` from a
malformed registry (never reached on well-formed ones). -/
inductive BoundsErr : Type
  | outOfBounds (key : String) (value bound : ℚ) (belowMin : Bool)
  | keyOrIndexError
  deriving DecidableEq

/-- Recursion of `fitparameters.checkbounds` over `keysfit` with the running
index into `parlist`. -/
def fitparameters.checkboundsGo (fp : String → Option FitRecord)
    (keys : List String) (i : ℕ) (parlist : List ℚ) : Except BoundsErr Unit :=
  match keys with
  | [] => Except.ok ()
  | k :: ks =>
    match fp k, parlist.get? i with
    | some fr, some v =>
      match fr.pmin, fr.pmax with
      | some mn, some mx =>
        if v < mn then Except.error (BoundsErr.outOfBounds k v mn true)
        else if v > mx then Except.error (BoundsErr.outOfBounds k v mx false)
        else fitparameters.checkboundsGo fp ks (i + 1) parlist
      | _, _ => Except.error BoundsErr.keyOrIndexError
    | _, _ => Except.error BoundsErr.keyOrIndexError

/-- Embeds `fitparameters.checkbounds` (classes.py lines 110-117): raises on
the first free component strictly outside its `[min, max]`. -/
def fitparameters.checkbounds (r : fitparameters) (parlist : List ℚ) :
    Except BoundsErr Unit :=
  fitparameters.checkboundsGo r.fitpars r.keysfit 0 parlist

/-- Well-formedness of a registry as relied on by the source: every free key
has a stored record, which is non-fixed and carries both bounds.  Every
registry built by `add` alone satisfies this. -/
def fitparameters.WFfit (r : fitparameters) : Prop :=
  ∀ k ∈ r.keysfit, ∃ fr, r.fitpars k = some fr ∧
    fr.fixed = false ∧ fr.pmin.isSome ∧ fr.pmax.isSome


/-- Order on indices realizing the stable argsort `np.lexsort((secondary,
primary))`: compare the primary key, then the secondary key, then the index
itself, so equal keys keep their original order exactly as numpy's stable
lexsort does. -/
def lexIdxLE (primary secondary : List ℚ) (i j : ℕ) : Prop :=
  primary.getD i 0 < primary.getD j 0 ∨
    (primary.getD i 0 = primary.getD j 0 ∧
      (secondary.getD i 0 < secondary.getD j 0 ∨
        (secondary.getD i 0 = secondary.getD j 0 ∧ i ≤ j)))

instance (primary secondary : List ℚ) : DecidableRel (lexIdxLE primary secondary) :=
  fun i j => by unfold lexIdxLE; infer_instance

/-- Embeds `np.lexsort((k0, k1))` (last key `k1` is primary): the stable
argsort of the index range.  Any sort of the linear order `lexIdxLE`
reproduces numpy's stable output, because ties are broken by the index. -/
def np_lexsort (k0 k1 : List ℚ) : List ℕ :=
  List.insertionSort (lexIdxLE k1 k0) (List.range k1.length)

/-- Observed-catalog state stored by `epos.set_observation`.  The plot limits
`obs_xlim`/`obs_ylim` (fractional powers, plotting only) and the printed
multiplicity summaries (in `EPOS/multi.py`, plotting/diagnostics) are
outside the embedded core. -/
structure ObsState where
  obs_xvar : List ℚ
  obs_yvar : List ℚ
  obs_starID : List ℚ
  nstars : ℚ
  deriving DecidableEq

/-- Embeds `epos.set_observation` (classes.py lines 182-202): lexsort the
catalog by (starID, then period) and store the reordered arrays.
`np.lexsort` raises when its keys differ in length, and indexing `yvar` by
the sort order raises when `yvar` is shorter than the keys. -/
def epos.set_observation (xvar yvar starID : List ℚ) (nstars : ℚ) :
    Except String ObsState :=
  if xvar.length = starID.length then
    let order := np_lexsort xvar starID
    if order.all (fun i => i < yvar.length) then
      Except.ok
        { obs_xvar := order.map fun i => xvar.getD i 0
          obs_yvar := order.map fun i => yvar.getD i 0
          obs_starID := order.map fun i => starID.getD i 0
          nstars := nstars }
    else Except.error "index out of bounds"
  else Except.error "all keys need to be the same shape"

/-- Python built-in `max(a, b)` (kernel-reducible, unlike the lattice `max`
of ℚ; ties keep the first argument, as Python does). -/
def qmax (a b : ℚ) : ℚ := if a ≥ b then a else b

/-- Python built-in `min(a, b)`. -/
def qmin (a b : ℚ) : ℚ := if a ≤ b then a else b

/-- Python `min` over a nonempty numeric list. -/
def pymin (l : List ℚ) : ℚ :=
  match l with
  | [] => 0
  | x :: xs => xs.foldl qmin x

/-- Python `max` over a nonempty numeric list. -/
def pymax (l : List ℚ) : ℚ :=
  match l with
  | [] => 0
  | x :: xs => xs.foldl qmax x

/-- Survey state stored by `epos.set_survey`.  For an RV survey `Rstar` is
not stored by the source; it is kept here unconditionally and simply unread
on that path. -/
structure SurveyState where
  eff_xvar : List ℚ
  eff_yvar : List ℚ
  eff_2D : List (List ℚ)
  eff_xlim : ℚ × ℚ
  eff_ylim : ℚ × ℚ
  Mstar : ℚ
  Rstar : ℚ
  completeness : List (List ℚ)
  deriving DecidableEq

/-- Embeds `epos.set_survey` (classes.py lines 226-264).  The geometric
transit factor `fgeo_prefac * P ** (-2/3)` mixes physical constants and a
fractional power, both irrational; it is abstracted into the function
parameter `fgeo` applied to each period-axis value. -/
def epos.set_survey (RV : Bool) (fgeo : ℚ → ℚ) (xvar yvar : List ℚ)
    (eff_2D : List (List ℚ)) (Rstar Mstar : ℚ) : Except String SurveyState :=
  if eff_2D.length = xvar.length ∧ ∀ r ∈ eff_2D, r.length = yvar.length then
    if xvar = [] ∨ yvar = [] then Except.error "zero-size array"
    else
      Except.ok
        { eff_xvar := xvar
          eff_yvar := yvar
          eff_2D := eff_2D
          eff_xlim := (pymin xvar, pymax xvar)
          eff_ylim := (pymin yvar, pymax yvar)
          Mstar := Mstar
          Rstar := Rstar
          completeness :=
            if RV then eff_2D
            else List.zipWith (fun P row => row.map fun e => e * fgeo P) xvar eff_2D }
  else Except.error "Mismatching detection efficiency"

/-- Embeds `np.searchsorted(array, v, side='left')` for a sorted array: the
left insertion point, i.e. the number of leading elements strictly below
`v`.  The binary search of numpy agrees with this scan on sorted input. -/
def searchsorted_left : List ℚ → ℚ → ℕ
  | [], _ => 0
  | x :: xs, v => if x < v then searchsorted_left xs v + 1 else 0

/-- Embeds `_trimarray` (classes.py lines 560-572): the index window of the
axis samples kept for interpolation-safe trimming.  `array[1]` and
`array[-2]` are read through `getD`; the source presupposes an axis of at
least two samples. -/
def _trimarray (array : List ℚ) (trim : ℚ × ℚ) : ℕ × ℕ :=
  (if trim.1 < array.getD 1 0 then 0 else searchsorted_left array trim.1 - 1,
   if trim.2 > array.getD (array.length - 2) 0 then array.length
   else searchsorted_left array trim.2 + 1)

/-- Python 2D slice `M[i0:i1, j0:j1]`. -/
def npSlice2 (M : List (List ℚ)) (i0 i1 j0 j1 : ℕ) : List (List ℚ) :=
  ((M.drop i0).take (i1 - i0)).map fun r => (r.drop j0).take (j1 - j0)

/-- Range/grid state produced by `epos.set_ranges`.  The embedded branch is
the one the parametric pipeline uses: `PDF=True`, `MassRadius=False` (the
mass-radius branch re-grids with `np.logspace`); the `Occ` occurrence-table
block and plot ticks are outside the embedded core. -/
structure RangeState where
  xtrim : ℚ × ℚ
  ytrim : ℚ × ℚ
  xzoom : ℚ × ℚ
  yzoom : ℚ × ℚ
  Zoom : Bool
  MC_xvar : List ℚ
  MC_yvar : List ℚ
  MC_eff : List (List ℚ)
  scale_x : ℚ
  scale_y : ℚ
  scale : ℚ
  X : List (List ℚ)
  Y : List (List ℚ)
  in_ytrim : ℚ × ℚ
  in_yvar : List ℚ
  scale_in_y : ℚ
  scale_in : ℚ
  X_in : List (List ℚ)
  Y_in : List (List ℚ)
  deriving DecidableEq

/-- Core of `epos.set_ranges` (classes.py lines 266-344) after its state
guards: trim/zoom clamping, `_trimarray` windowing, log-area scale factors
and the working meshes. -/
def set_ranges_core (rf : RealFuns) (eff_xvar eff_yvar : List ℚ)
    (eff_2D : List (List ℚ)) (eff_xlim eff_ylim : ℚ × ℚ)
    (xtrim ytrim xzoom yzoom : Option (ℚ × ℚ)) (LogArea : Bool) : RangeState :=
  let xtr := match xtrim with
    | none => eff_xlim
    | some t => (qmax t.1 eff_xlim.1, qmin t.2 eff_xlim.2)
  let ytr := match ytrim with
    | none => eff_ylim
    | some t => (qmax t.1 eff_ylim.1, qmin t.2 eff_ylim.2)
  let xzm := match xzoom with
    | none => xtr
    | some z => (qmax z.1 xtr.1, qmin z.2 xtr.2)
  let yzm := match yzoom with
    | none => ytr
    | some z => (qmax z.1 ytr.1, qmin z.2 ytr.2)
  let Zoom : Bool := match xzoom, yzoom with
    | none, none => false
    | _, _ => !(xzm = xtr ∧ yzm = ytr : Bool)
  let ix := _trimarray eff_xvar xtr
  let iy := _trimarray eff_yvar ytr
  let MCx := npSlice eff_xvar ix.1 ix.2
  let MCy := npSlice eff_yvar iy.1 iy.2
  let area : ℚ → ℚ := if LogArea then rf.log10 else rf.ln
  let scale_x := (MCx.length : ℚ) / area (MCx.getLastD 0 / MCx.headD 0)
  let scale_y := (MCy.length : ℚ) / area (MCy.getLastD 0 / MCy.headD 0)
  let XY := npMeshgrid MCx MCy
  { xtrim := xtr
    ytrim := ytr
    xzoom := xzm
    yzoom := yzm
    Zoom := Zoom
    MC_xvar := MCx
    MC_yvar := MCy
    MC_eff := npSlice2 eff_2D ix.1 ix.2 iy.1 iy.2
    scale_x := scale_x
    scale_y := scale_y
    scale := scale_x * scale_y
    X := XY.1
    Y := XY.2
    in_ytrim := ytr
    in_yvar := MCy
    scale_in_y := scale_y
    scale_in := scale_x * scale_y
    X_in := XY.1
    Y_in := XY.2 }

/-- Embeds `epos.set_ranges` including its three state guards
(classes.py lines 269-271). -/
def epos.set_ranges (rf : RealFuns) (Range Observation DetectionEfficiency : Bool)
    (eff_xvar eff_yvar : List ℚ) (eff_2D : List (List ℚ))
    (eff_xlim eff_ylim : ℚ × ℚ) (xtrim ytrim xzoom yzoom : Option (ℚ × ℚ))
    (LogArea : Bool) : Except String RangeState :=
  if Range then Except.error "Range already defined"
  else if !Observation then Except.error "No observation defined"
  else if !DetectionEfficiency then Except.error "No detection effifiency defined"
  else Except.ok (set_ranges_core rf eff_xvar eff_yvar eff_2D eff_xlim eff_ylim
    xtrim ytrim xzoom yzoom LogArea)

/-- View of the `epos` object consumed by `periodradius` (population.py):
the registry, the parametric density function, the input mesh and the cached
grid/scale values.  With `MassRadius=False` the `X_in`/`Y_in`/`scale_in_y`
fields coincide with `X`/`Y`/`scale_y` (classes.py lines 339-344). -/
structure EposPDF where
  fitpars : fitparameters
  func : List (List ℚ) → List (List ℚ) → List ℚ → List (List ℚ)
  X_in : List (List ℚ)
  Y_in : List (List ℚ)
  MC_xvar : List ℚ
  MC_yvar : List ℚ
  scale : ℚ
  scale_x : ℚ
  scale_in_y : ℚ

/-- Embeds `EPOS.population.periodradius` (population.py lines 3-50).  The
density function is applied to whole meshes, as in the source; `none` mirrors
a `KeyError` from the parameter lookups. -/
def periodradius (rf : RealFuns) (ep : EposPDF) (Init : Bool)
    (fpara : Option (List ℚ)) (xbin ybin : Option (ℚ × ℚ))
    (xgridArg ygridArg : Option (List ℚ)) :
    Option (ℚ × List (List ℚ) × List ℚ × List ℚ) :=
  let ppsO := match fpara with
    | none => ep.fitpars.get "pps" Init
    | some fp => ep.fitpars.getmc "pps" fp
  let f2dO := match fpara with
    | none => ep.fitpars.get2d Init
    | some fp => ep.fitpars.get2d_fromlist fp
  match ppsO, f2dO with
  | some pps, some fpar2d =>
    let _pdf := ep.func ep.X_in ep.Y_in fpar2d
    let _pdf_X := npSumAxis1 _pdf
    let _pdf_Y := npSumAxis0 _pdf
    let xgrid : Option (List ℚ) := match xbin with
      | some xb => some (rf.logspace5 xb.1 xb.2)
      | none => xgridArg
    let ygrid : Option (List ℚ) := match ybin with
      | some yb => some (rf.logspace5 yb.1 yb.2)
      | none => ygridArg
    if xgrid.isSome || ygrid.isSome then
      let xg := xgrid.getD ep.MC_xvar
      let yg := ygrid.getD ep.MC_yvar
      let XY := npMeshgrid xg yg
      let pdf0 := ep.func XY.1 XY.2 fpar2d
      let pdf := pdf0.map fun row => row.map fun v => pps * v / matSum _pdf * ep.scale
      let dlnx := rf.ln (xg.getLastD 0 / xg.headD 0)
      let dlny := rf.ln (yg.getLastD 0 / yg.headD 0)
      let pdf_X := (npAverageAxis1 pdf).map (· * dlny)
      let pdf_Y := (npAverageAxis0 pdf).map (· * dlnx)
      some (pps, pdf, pdf_X, pdf_Y)
    else
      let pdf_X := _pdf_X.map fun v => pps * v / _pdf_X.sum * ep.scale_x
      let pdf_Y := _pdf_Y.map fun v => pps * v / _pdf_Y.sum * ep.scale_in_y
      let pdf := _pdf.map fun row => row.map fun v => pps * v / matSum _pdf * ep.scale
      some (pps, pdf, pdf_X, pdf_Y)
  | _, _ => none

/-- A bins argument of `epos.set_bins`: `np.ndim == 1` (one bare edge pair)
or `np.ndim == 2` (a list of edge pairs); any other dimensionality raises in
the source. -/
inductive BinsArg : Type
  | dim1 (pair : List ℚ)
  | dim2 (pairs : List (List ℚ))

/-- Edge-pair list derivation of `epos.set_bins` for one axis: either from
explicit bins (asserting a bare pair has length 2) or from grid breakpoints
zipped into consecutive pairs. -/
def binsFrom (bins : BinsArg) (grid : Option (List ℚ)) :
    Except String (List (List ℚ)) :=
  match grid with
  | none =>
    match bins with
    | BinsArg.dim1 pair =>
      if pair.length = 2 then Except.ok [pair] else Except.error "assert len==2"
    | BinsArg.dim2 pairs => Except.ok pairs
  | some g => Except.ok ((g.zip g.tail).map fun p => [p.1, p.2])

/-- Embeds `epos.set_bins` (classes.py lines 377-431), returning the stored
`focc['bin']['x']` and `focc['bin']['y in']` row lists.  `np.tile(A,(m,1))`
is `m` stacked copies of the row list; the `Grid=False` shape comparison of
two `(n,2)` arrays reduces to comparing the row counts. -/
def epos.set_bins (xbins ybins : BinsArg) (xgrid ygrid : Option (List ℚ))
    (Grid : Bool) : Except String (List (List ℚ) × List (List ℚ)) :=
  match binsFrom xbins xgrid, binsFrom ybins ygrid with
  | Except.error e, _ => Except.error e
  | _, Except.error e => Except.error e
  | Except.ok _xbins, Except.ok _ybins =>
    if Grid then
      Except.ok ((List.replicate _ybins.length _xbins).flatten,
                 (List.replicate _xbins.length _ybins).flatten)
    else
      if _xbins.length = _ybins.length then Except.ok (_xbins, _ybins)
      else Except.error "unequal amount of bins. Use Grid=True?"

/-- Failure modes of `epos.set_population`: a second population, the
`ValueError` raised by the sma/mass length-check block (classes.py lines
479-483 — note the bare `except` turns the length mismatch into the
"have to be iterable" message, still a `ValueError`), the `np.lexsort`
shape error, a fancy-indexing `IndexError`, and `np.min`/`np.max` over an
empty array. -/
inductive PopErr : Type
  | existingPopulation
  | inconsistentLength
  | lexsortShape
  | indexError
  | emptyCatalog
  deriving DecidableEq

/-- Numpy fancy indexing `l[order]`: `IndexError` when an index is out of
range. -/
def fancyIndex (l : List ℚ) (order : List ℕ) : Option (List ℚ) :=
  if order.all (fun i => i < l.length) then some (order.map fun i => l.getD i 0)
  else none

/-- Modelled from the spec: `EPOS.multi.nth_planet` lives in `EPOS/multi.py`,
which is not among the provided sources.  Per the spec's MultiplicityAnalyzer
(`assignNeighborRatio`, spec section 4.5) and the call site (classes.py lines
518-523), after the catalog is lexsorted by (star, sma): a planet of a
single-planet star gets the sentinel 0, the first planet of a multi-planet
star keeps the `np.ones_like` initialization 1, and every later planet gets
the period ratio to its immediate inner neighbour, the preceding array
entry. -/
def dP_assign (ids P : List ℚ) : List ℚ :=
  (List.range ids.length).map fun i =>
    if ids.count (ids.getD i 0) = 1 then 0
    else if i = 0 ∨ ids.getD (i - 1) 0 ≠ ids.getD i 0 then 1
    else P.getD i 0 / P.getD (i - 1) 0

/-- The synthetic-catalog dict `pfm` built by `epos.set_population`.  The
plot limits `mod_xlim`/`mod_ylim` (fractional powers, plotting only) are
outside the embedded core. -/
structure PFM where
  name : String
  sma : List ℚ
  M : List ℚ
  ID : List ℚ
  tag : Option (List ℚ)
  inc : Option (List ℚ)
  P : List ℚ
  npl : ℕ
  ns : ℕ
  dP : Option (List ℚ)
  Mlimits : ℚ × ℚ
  Plimits : ℚ × ℚ
  deriving DecidableEq

/-- Reindexing step of the multi-planet branch of `set_population`: apply the
lexsort order to every array present in `pfm` (classes.py lines 511-513). -/
def popReindex (order : List ℕ) (l : Option (List ℚ)) :
    Except PopErr (Option (List ℚ)) :=
  match l with
  | none => Except.ok none
  | some a =>
    match fancyIndex a order with
    | none => Except.error PopErr.indexError
    | some a' => Except.ok (some a')

/-- Multi-planet branch of `epos.set_population` (classes.py lines 509-523):
guard the lexsort key shapes, reorder every stored array by (star, sma), and
attach the neighbour period ratios. -/
def epos.set_population_multi (sma mass ID P : List ℚ)
    (inc tag : Option (List ℚ)) :
    Except PopErr (List ℚ × List ℚ × List ℚ × List ℚ × Option (List ℚ) ×
      Option (List ℚ) × Option (List ℚ)) :=
  if sma.length = ID.length then
    let order := np_lexsort sma ID
    match fancyIndex ID order, fancyIndex sma order,
        fancyIndex mass order, fancyIndex P order with
    | some ID', some sma', some M', some P' =>
      match popReindex order inc, popReindex order tag with
      | Except.ok inc', Except.ok tag' =>
        Except.ok (ID', sma', M', P', inc', tag', some (dP_assign ID' P'))
      | Except.error e, _ => Except.error e
      | _, Except.error e => Except.error e
    | _, _, _, _ => Except.error PopErr.indexError
  else Except.error PopErr.lexsortShape

/-- Tail of `epos.set_population` (classes.py lines 528-529): the
`np.min`/`np.max` limits of the (possibly reordered) arrays, failing on an
empty catalog as numpy does. -/
def epos.set_population_finish (name : String) (npl ns : ℕ)
    (t : List ℚ × List ℚ × List ℚ × List ℚ × Option (List ℚ) ×
      Option (List ℚ) × Option (List ℚ)) : Except PopErr PFM :=
  if t.2.2.1 = [] ∨ t.2.2.2.1 = [] then Except.error PopErr.emptyCatalog
  else
    Except.ok
      { name := name
        sma := t.2.1
        M := t.2.2.1
        ID := t.1
        tag := t.2.2.2.2.2.1
        inc := t.2.2.2.2.1
        P := t.2.2.2.1
        npl := npl
        ns := ns
        dP := t.2.2.2.2.2.2
        Mlimits := (pymin t.2.2.1, pymax t.2.2.1)
        Plimits := (pymin t.2.2.2.1, pymax t.2.2.2.1) }

/-- Dispatch of the multi-branch result of `set_population`: an exception
propagates, a catalog tuple proceeds to the limits tail. -/
def epos.set_population_tail (name : String) (npl ns : ℕ)
    (am : Except PopErr (List ℚ × List ℚ × List ℚ × List ℚ × Option (List ℚ) ×
      Option (List ℚ) × Option (List ℚ))) : Except PopErr PFM :=
  match am with
  | Except.error e => Except.error e
  | Except.ok t => epos.set_population_finish name npl ns t

/-- Embeds `epos.set_population` (classes.py lines 467-539).  `hasPfm` is the
`hasattr(self, 'pfm')` state; `pow15` abstracts the irrational fractional
power `sma ** 1.5` of the Kepler relation `P = sma**1.5 * 365.25`; the
`EPOS.multi` summaries that only print are dropped and `nth_planet` is
modelled from the spec via `dP_assign`. -/
def epos.set_population (pow15 : ℚ → ℚ) (hasPfm : Bool) (name : String)
    (sma mass : List ℚ) (inc starID tag : Option (List ℚ)) :
    Except PopErr PFM :=
  if hasPfm then Except.error PopErr.existingPopulation
  else if sma.length ≠ mass.length then Except.error PopErr.inconsistentLength
  else
    let ID : List ℚ := match starID with
      | none => (List.range sma.length).map fun (i : ℕ) => (i : ℚ)
      | some l => l
    let P : List ℚ := sma.map fun s => pow15 s * (1461 / 4)
    let npl := ID.length
    let ns := ID.dedup.length
    let afterMulti : Except PopErr
        (List ℚ × List ℚ × List ℚ × List ℚ × Option (List ℚ) ×
          Option (List ℚ) × Option (List ℚ)) :=
      if npl > ns then epos.set_population_multi sma mass ID P inc tag
      else Except.ok (ID, sma, mass, P, inc, tag, none)
    epos.set_population_tail name npl ns afterMulti

/-- Concrete registry used by witnesses: one free 2D parameter "a". -/
def rWitness : fitparameters := fitparameters.empty.add "a" 1 false 0 1 none true

/-- Concrete numerics record for witnesses where the log values are
irrelevant. -/
def rfTrivial : RealFuns :=
  { ln := fun _ => 1, log10 := fun _ => 1, logspace5 := fun _ _ => [] }

/-- Concrete survey for the C7 witness. -/
def svC7 : SurveyState :=
  { eff_xvar := [1, 2], eff_yvar := [1, 2], eff_2D := [[1, 1], [1, 1]]
    eff_xlim := (1, 2), eff_ylim := (1, 2), Mstar := 1, Rstar := 1
    completeness := [[1, 1], [1, 1]] }

/-- Ordering fact for the clamp: the second argument bounds `qmax` below. -/
theorem le_qmax_right (a b : ℚ) : b ≤ qmax a b := by
  unfold qmax; split
  · assumption
  · exact le_refl b

/-- Ordering fact for the clamp: `qmin` is bounded above by its second
argument. -/
theorem qmin_le_right (a b : ℚ) : qmin a b ≤ b := by
  unfold qmin; split
  · assumption
  · exact le_refl b

/-- Claim C9: re-registering an existing key via `fitparameters.add` never
fails: it silently overwrites the stored record with a fresh registration
record (dropping any fitted value) and appends the key a second time to
`keysall` — and to `keysfit` when not fixed, to `keys2d` when 2D — so the
ordered key lists can contain duplicates and the free-key count grows on a
duplicate free registration. -/
theorem C9_add_duplicate_overwrites (r : fitparameters) (key : String)
    (value : ℚ) (fixed : Bool) (pmin pmax : ℚ) (dx : Option ℚ) (is2D : Bool)
    (hdup : key ∈ r.keysall) :
    (r.add key value fixed pmin pmax dx is2D).fitpars key =
      (fitparameters.empty.add key value fixed pmin pmax dx is2D).fitpars key
    ∧ (r.add key value fixed pmin pmax dx is2D).keysall = r.keysall ++ [key]
    ∧ 2 ≤ (r.add key value fixed pmin pmax dx is2D).keysall.count key
    ∧ (r.add key value fixed pmin pmax dx is2D).keysfit =
        (if fixed then r.keysfit else r.keysfit ++ [key])
    ∧ (r.add key value fixed pmin pmax dx is2D).keys2d =
        (if is2D then r.keys2d ++ [key] else r.keys2d)
    ∧ (fixed = false →
        (r.add key value fixed pmin pmax dx is2D).keysfit.length =
          r.keysfit.length + 1) := by
  refine ⟨by simp [fitparameters.add], by simp [fitparameters.add], ?_,
    by simp [fitparameters.add], by simp [fitparameters.add], ?_⟩
  · have h1 : 1 ≤ r.keysall.count key := List.count_pos_iff.mpr hdup
    have : (r.add key value fixed pmin pmax dx is2D).keysall.count key =
        r.keysall.count key + 1 := by
      simp [fitparameters.add]
    omega
  · intro hfix
    simp [fitparameters.add, hfix]

/-- Claim C9 witness: duplicate registration of "a" on a registry that
already holds it. -/
theorem C9_witness :
    ("a" ∈ rWitness.keysall) ∧
    ((rWitness.add "a" 2 false 0 1 none true).fitpars "a" =
      (fitparameters.empty.add "a" 2 false 0 1 none true).fitpars "a"
    ∧ (rWitness.add "a" 2 false 0 1 none true).keysall =
        rWitness.keysall ++ ["a"]
    ∧ 2 ≤ (rWitness.add "a" 2 false 0 1 none true).keysall.count "a"
    ∧ (rWitness.add "a" 2 false 0 1 none true).keysfit =
        (if false then rWitness.keysfit else rWitness.keysfit ++ ["a"])
    ∧ (rWitness.add "a" 2 false 0 1 none true).keys2d =
        (if true then rWitness.keys2d ++ ["a"] else rWitness.keys2d)
    ∧ (false = false →
        (rWitness.add "a" 2 false 0 1 none true).keysfit.length =
          rWitness.keysfit.length + 1)) :=
  ⟨by decide, C9_add_duplicate_overwrites rWitness "a" 2 false 0 1 none true (by decide)⟩

/-- Claim C6 (code-bug evidence): at xbins=[[1,10],[10,100]],
ybins=[[1,2],[2,4]], Grid=True, `set_bins` does return 4 rows, but they are
not the Cartesian tiling: both axes are laid out with `np.tile`, so the row
pairs are (x0,y0),(x1,y1),(x0,y0),(x1,y1) — the combination (x0,y1) never
occurs and (x0,y0) occurs twice, contradicting the docstring's nx*ny 2D
grid. -/
theorem C6_set_bins_grid_failing_input :
    epos.set_bins (BinsArg.dim2 [[1, 10], [10, 100]])
      (BinsArg.dim2 [[1, 2], [2, 4]]) none none true =
      Except.ok ([[1, 10], [10, 100], [1, 10], [10, 100]],
                 [[1, 2], [2, 4], [1, 2], [2, 4]])
    ∧ (([[1, 10], [10, 100], [1, 10], [10, 100]] : List (List ℚ)).zip
        ([[1, 2], [2, 4], [1, 2], [2, 4]] : List (List ℚ))).length = 4
    ∧ (([[1, 10], [10, 100], [1, 10], [10, 100]] : List (List ℚ)).zip
        ([[1, 2], [2, 4], [1, 2], [2, 4]] : List (List ℚ))).count
          ([1, 10], [2, 4]) = 0
    ∧ (([[1, 10], [10, 100], [1, 10], [10, 100]] : List (List ℚ)).zip
        ([[1, 2], [2, 4], [1, 2], [2, 4]] : List (List ℚ))).count
          ([1, 10], [1, 2]) = 2 := by decide

/-- Claim C7: after every successful `set_ranges` call, the stored zoom
bounds are nested in the stored trim bounds, and the stored trim bounds are
nested in the survey grid's full extent, for any requested trim/zoom
arguments (including ones partly or wholly outside the grid). -/
theorem C7_ranges_nested (rf : RealFuns) (RV : Bool) (fgeo : ℚ → ℚ)
    (xvar yvar : List ℚ) (eff : List (List ℚ)) (Rstar Mstar : ℚ)
    (Range Observation DetectionEff : Bool)
    (xtrim ytrim xzoom yzoom : Option (ℚ × ℚ)) (LogArea : Bool)
    (sv : SurveyState) (st : RangeState)
    (hsur : epos.set_survey RV fgeo xvar yvar eff Rstar Mstar = Except.ok sv)
    (hrng : epos.set_ranges rf Range Observation DetectionEff sv.eff_xvar
      sv.eff_yvar sv.eff_2D sv.eff_xlim sv.eff_ylim xtrim ytrim xzoom yzoom
      LogArea = Except.ok st) :
    (sv.eff_xlim.1 ≤ st.xtrim.1 ∧ st.xtrim.2 ≤ sv.eff_xlim.2)
    ∧ (sv.eff_ylim.1 ≤ st.ytrim.1 ∧ st.ytrim.2 ≤ sv.eff_ylim.2)
    ∧ (st.xtrim.1 ≤ st.xzoom.1 ∧ st.xzoom.2 ≤ st.xtrim.2)
    ∧ (st.ytrim.1 ≤ st.yzoom.1 ∧ st.yzoom.2 ≤ st.ytrim.2) := by
  have hst : st = set_ranges_core rf sv.eff_xvar sv.eff_yvar sv.eff_2D
      sv.eff_xlim sv.eff_ylim xtrim ytrim xzoom yzoom LogArea := by
    unfold epos.set_ranges at hrng
    split at hrng
    · exact absurd hrng (by simp)
    · split at hrng
      · exact absurd hrng (by simp)
      · split at hrng
        · exact absurd hrng (by simp)
        · exact (Except.ok.injEq _ _ ▸ hrng).symm
  subst hst
  unfold set_ranges_core
  cases xtrim <;> cases ytrim <;> cases xzoom <;> cases yzoom <;>
    simp [le_qmax_right, qmin_le_right]

/-- Concrete range state for the C7 witness. -/
def stC7 : RangeState :=
  set_ranges_core rfTrivial [1, 2] [1, 2] [[1, 1], [1, 1]] (1, 2) (1, 2)
    (some (0, 3)) (some (1, 2)) (some (3/2, 5)) (some (1, 2)) false

/-- Claim C7 witness: a concrete survey and range configuration, with a trim
request partly outside the grid and a zoom request partly outside the trim. -/
theorem C7_witness :
    (epos.set_survey true (fun _ => 0) [1, 2] [1, 2] [[1, 1], [1, 1]] 1 1 =
      Except.ok svC7)
    ∧ (epos.set_ranges rfTrivial false true true svC7.eff_xvar svC7.eff_yvar
        svC7.eff_2D svC7.eff_xlim svC7.eff_ylim (some (0, 3)) (some (1, 2))
        (some (3/2, 5)) (some (1, 2)) false = Except.ok stC7)
    ∧ ((svC7.eff_xlim.1 ≤ stC7.xtrim.1 ∧ stC7.xtrim.2 ≤ svC7.eff_xlim.2)
      ∧ (svC7.eff_ylim.1 ≤ stC7.ytrim.1 ∧ stC7.ytrim.2 ≤ svC7.eff_ylim.2)
      ∧ (stC7.xtrim.1 ≤ stC7.xzoom.1 ∧ stC7.xzoom.2 ≤ stC7.xtrim.2)
      ∧ (stC7.ytrim.1 ≤ stC7.yzoom.1 ∧ stC7.yzoom.2 ≤ stC7.ytrim.2)) :=
  ⟨rfl, rfl,
    C7_ranges_nested rfTrivial true (fun _ => 0) [1, 2] [1, 2] [[1, 1], [1, 1]]
      1 1 false true true (some (0, 3)) (some (1, 2)) (some (3/2, 5))
      (some (1, 2)) false svC7 stC7 rfl rfl⟩

/-- Length preservation of `optMapList` on success. -/
theorem optMapList_some_length {α β : Type} (f : α → Option β) :
    ∀ (l : List α), (∀ a ∈ l, (f a).isSome) →
      ∃ l', optMapList f l = some l' ∧ l'.length = l.length := by
  intro l
  induction l with
  | nil => intro _; exact ⟨[], rfl, rfl⟩
  | cons a t ih =>
    intro h
    obtain ⟨b, hb⟩ := Option.isSome_iff_exists.mp (h a (List.mem_cons_self a t))
    obtain ⟨l', hl', hlen⟩ := ih fun x hx => h x (List.mem_cons_of_mem a hx)
    exact ⟨b :: l', by simp [optMapList, hb, hl'], by simp [hlen]⟩

/-- Invariant of the `setfit` walk: on pairwise-distinct keys all present in
the store, it succeeds, each listed key's record gains the matching vector
component as fitted value, and unlisted keys are untouched. -/
theorem setfitGo_spec (keys : List String) :
    ∀ (fp : String → Option FitRecord) (i : ℕ) (mclist : List ℚ),
    keys.Nodup →
    (∀ k ∈ keys, (fp k).isSome) →
    (∀ j, j < keys.length → i + j < mclist.length) →
    ∃ fp', fitparameters.setfitGo fp keys i mclist = some fp' ∧
      (∀ j k v, keys.get? j = some k → mclist.get? (i + j) = some v →
        ∃ fr, fp k = some fr ∧ fp' k = some { fr with value_fit := some v }) ∧
      (∀ k, k ∉ keys → fp' k = fp k) := by
  induction keys with
  | nil =>
    intro fp i mclist _ _ _
    exact ⟨fp, rfl, by intro j k v h; simp at h, fun _ _ => rfl⟩
  | cons k0 ks ih =>
    intro fp i mclist hnd hwf hlen
    obtain ⟨hk0, hksnd⟩ := List.nodup_cons.mp hnd
    obtain ⟨fr0, hfr0⟩ :=
      Option.isSome_iff_exists.mp (hwf k0 (List.mem_cons_self k0 ks))
    have hi : i < mclist.length := by
      have := hlen 0 (by simp)
      simpa using this
    have hv0 : mclist.get? i = some (mclist.get ⟨i, hi⟩) := List.get?_eq_get hi
    have hwf1 : ∀ k ∈ ks,
        ((fun k' => if k' = k0 then
            some { fr0 with value_fit := some (mclist.get ⟨i, hi⟩) }
          else fp k') k).isSome := by
      intro k hk
      have hne : k ≠ k0 := fun he => hk0 (he ▸ hk)
      simp only [if_neg hne]
      exact hwf k (List.mem_cons_of_mem k0 hk)
    have hlen1 : ∀ j, j < ks.length → (i + 1) + j < mclist.length := by
      intro j hj
      have := hlen (j + 1) (by simpa using Nat.succ_lt_succ hj)
      omega
    obtain ⟨fp', heq, hrt, hout⟩ :=
      ih (fun k' => if k' = k0 then
            some { fr0 with value_fit := some (mclist.get ⟨i, hi⟩) }
          else fp k')
        (i + 1) mclist hksnd hwf1 hlen1
    refine ⟨fp', ?_, ?_, ?_⟩
    · simp only [fitparameters.setfitGo, hfr0, hv0]
      exact heq
    · intro j k v hkey hval
      match j with
      | 0 =>
        simp only [List.get?_cons_zero, Option.some.injEq] at hkey
        subst hkey
        rw [Nat.add_zero] at hval
        have hveq : v = mclist.get ⟨i, hi⟩ := by
          have := hv0.symm.trans hval
          injection this with h
          exact h.symm
        subst hveq
        refine ⟨fr0, hfr0, ?_⟩
        rw [hout k0 hk0]
        simp
      | j' + 1 =>
        simp only [List.get?_cons_succ] at hkey
        have hmem : k ∈ ks := List.get?_mem hkey
        have hne : k ≠ k0 := fun he => hk0 (he ▸ hmem)
        have hidx : i + (j' + 1) = (i + 1) + j' := by omega
        rw [hidx] at hval
        obtain ⟨fr, hfr, hfp'⟩ := hrt j' k v hkey hval
        refine ⟨fr, ?_, hfp'⟩
        simpa [if_neg hne] using hfr
    · intro k hk
      have hne : k ≠ k0 := fun he => hk (he ▸ List.mem_cons_self k0 ks)
      have hnks : k ∉ ks := fun hm => hk (List.mem_cons_of_mem k0 hm)
      rw [hout k hnks]
      simp [if_neg hne]

/-- Claim C4: for every registry with pairwise-distinct free keys whose
records are all stored, and every vector of free-key length: the free vector
`getfit` has the same length as `keysfit`, and `setfit` followed by
`get key (Init := false)` round-trips the vector component assigned to each
free key. -/
theorem C4_setfit_roundtrip (r : fitparameters) (mclist : List ℚ) (Init : Bool)
    (hnd : r.keysfit.Nodup)
    (hwf : ∀ k ∈ r.keysfit, (r.fitpars k).isSome)
    (hlen : mclist.length = r.keysfit.length) :
    (∃ l, fitparameters.getfit r Init = some l ∧ l.length = r.keysfit.length)
    ∧ ∃ r', fitparameters.setfit r mclist = some r' ∧
        ∀ j k v, r.keysfit.get? j = some k → mclist.get? j = some v →
          fitparameters.get r' k false = some v := by
  constructor
  · refine optMapList_some_length _ r.keysfit ?_
    intro k hk
    obtain ⟨fr, hfr⟩ := Option.isSome_iff_exists.mp (hwf k hk)
    simp [fitparameters.get, hfr]
  · have hlen' : ∀ j, j < r.keysfit.length → 0 + j < mclist.length := by
      intro j hj; omega
    obtain ⟨fp', heq, hrt, _⟩ := setfitGo_spec r.keysfit r.fitpars 0 mclist hnd hwf hlen'
    refine ⟨{ r with fitpars := fp' }, ?_, ?_⟩
    · simp [fitparameters.setfit, heq]
    · intro j k v hkey hval
      have hval' : mclist.get? (0 + j) = some v := by simpa using hval
      obtain ⟨fr, _, hfp'⟩ := hrt j k v hkey hval'
      simp [fitparameters.get, hfp']

/-- Concrete registry for the C4 witness: two distinct free keys. -/
def rC4 : fitparameters :=
  (fitparameters.empty.add "a" 1 false 0 5 none true).add "b" 2 false 0 5 none true

/-- Claim C4 witness: round trip of the vector [3, 4] through the two free
keys of a concrete registry. -/
theorem C4_witness :
    (rC4.keysfit.Nodup ∧ (∀ k ∈ rC4.keysfit, (rC4.fitpars k).isSome) ∧
      ([3, 4] : List ℚ).length = rC4.keysfit.length)
    ∧ ((∃ l, fitparameters.getfit rC4 true = some l ∧
          l.length = rC4.keysfit.length)
      ∧ ∃ r', fitparameters.setfit rC4 [3, 4] = some r' ∧
          ∀ j k v, rC4.keysfit.get? j = some k → ([3, 4] : List ℚ).get? j = some v →
            fitparameters.get r' k false = some v) :=
  ⟨⟨by decide, by decide, by decide⟩,
    C4_setfit_roundtrip rC4 [3, 4] true (by decide) (by decide) (by decide)⟩

/-- Success characterization of the `checkbounds` walk: on a well-formed
store with a long-enough vector, it returns ok exactly when every listed
component lies inside its bounds (boundary-equal values included). -/
theorem checkboundsGo_ok_iff (keys : List String) :
    ∀ (fp : String → Option FitRecord) (i : ℕ) (parlist : List ℚ),
    (∀ k ∈ keys, ∃ fr, fp k = some fr ∧ fr.pmin.isSome ∧ fr.pmax.isSome) →
    (∀ j, j < keys.length → i + j < parlist.length) →
    (fitparameters.checkboundsGo fp keys i parlist = Except.ok () ↔
      ∀ j k fr, keys.get? j = some k → fp k = some fr →
        fr.pmin.getD 0 ≤ parlist.getD (i + j) 0 ∧
          parlist.getD (i + j) 0 ≤ fr.pmax.getD 0) := by
  induction keys with
  | nil =>
    intro fp i parlist _ _
    constructor
    · intro _ j k fr hkey _
      simp at hkey
    · intro _; rfl
  | cons k0 ks ih =>
    intro fp i parlist hwf hlen
    obtain ⟨fr0, hfr0, hmn, hmx⟩ := hwf k0 (List.mem_cons_self k0 ks)
    obtain ⟨mn, hmn'⟩ := Option.isSome_iff_exists.mp hmn
    obtain ⟨mx, hmx'⟩ := Option.isSome_iff_exists.mp hmx
    have hi : i < parlist.length := by
      have := hlen 0 (by simp)
      simpa using this
    have hv0 : parlist.get? i = some (parlist.get ⟨i, hi⟩) := List.get?_eq_get hi
    have hvD : parlist.getD (i + 0) 0 = parlist.get ⟨i, hi⟩ := by
      simp [List.getD_eq_getElem?_getD, ← List.get?_eq_getElem?, hv0]
    have hwf' : ∀ k ∈ ks, ∃ fr, fp k = some fr ∧ fr.pmin.isSome ∧ fr.pmax.isSome :=
      fun k hk => hwf k (List.mem_cons_of_mem k0 hk)
    have hlen' : ∀ j, j < ks.length → (i + 1) + j < parlist.length := by
      intro j hj
      have := hlen (j + 1) (by simpa using Nat.succ_lt_succ hj)
      omega
    have hgo : fitparameters.checkboundsGo fp (k0 :: ks) i parlist =
        (if parlist.get ⟨i, hi⟩ < mn then
          Except.error (BoundsErr.outOfBounds k0 (parlist.get ⟨i, hi⟩) mn true)
        else if parlist.get ⟨i, hi⟩ > mx then
          Except.error (BoundsErr.outOfBounds k0 (parlist.get ⟨i, hi⟩) mx false)
        else fitparameters.checkboundsGo fp ks (i + 1) parlist) := by
      simp only [fitparameters.checkboundsGo, hfr0, hv0, hmn', hmx']
    by_cases h1 : parlist.get ⟨i, hi⟩ < mn
    · rw [hgo, if_pos h1]
      constructor
      · intro h; exact absurd h (by simp)
      · intro hall
        have := (hall 0 k0 fr0 (by simp) hfr0).1
        rw [hvD, hmn'] at this
        exact absurd this (by simpa using h1)
    · by_cases h2 : parlist.get ⟨i, hi⟩ > mx
      · rw [hgo, if_neg h1, if_pos h2]
        constructor
        · intro h; exact absurd h (by simp)
        · intro hall
          have := (hall 0 k0 fr0 (by simp) hfr0).2
          rw [hvD, hmx'] at this
          exact absurd this (by simpa using h2)
      · rw [hgo, if_neg h1, if_neg h2]
        rw [ih fp (i + 1) parlist hwf' hlen']
        constructor
        · intro hall j k fr hkey hfr
          match j with
          | 0 =>
            simp only [List.get?_cons_zero, Option.some.injEq] at hkey
            subst hkey
            rw [hfr0] at hfr
            injection hfr with hfr
            subst hfr
            rw [hvD, hmn', hmx']
            simp only [Option.getD_some]
            exact ⟨not_lt.mp h1, not_lt.mp h2⟩
          | j' + 1 =>
            simp only [List.get?_cons_succ] at hkey
            have hidx : i + (j' + 1) = (i + 1) + j' := by omega
            rw [hidx]
            exact hall j' k fr hkey hfr
        · intro hall j k fr hkey hfr
          have hidx : (i + 1) + j = i + (j + 1) := by omega
          rw [hidx]
          exact hall (j + 1) k fr (by simpa using hkey) hfr

/-- Error shape of the `checkbounds` walk on a well-formed store: any raised
failure is the out-of-bounds error. -/
theorem checkboundsGo_error_shape (keys : List String) :
    ∀ (fp : String → Option FitRecord) (i : ℕ) (parlist : List ℚ),
    (∀ k ∈ keys, ∃ fr, fp k = some fr ∧ fr.pmin.isSome ∧ fr.pmax.isSome) →
    (∀ j, j < keys.length → i + j < parlist.length) →
    ∀ e, fitparameters.checkboundsGo fp keys i parlist = Except.error e →
      ∃ k v b low, e = BoundsErr.outOfBounds k v b low := by
  induction keys with
  | nil =>
    intro fp i parlist _ _ e he
    exact absurd he (by simp [fitparameters.checkboundsGo])
  | cons k0 ks ih =>
    intro fp i parlist hwf hlen e he
    obtain ⟨fr0, hfr0, hmn, hmx⟩ := hwf k0 (List.mem_cons_self k0 ks)
    obtain ⟨mn, hmn'⟩ := Option.isSome_iff_exists.mp hmn
    obtain ⟨mx, hmx'⟩ := Option.isSome_iff_exists.mp hmx
    have hi : i < parlist.length := by
      have := hlen 0 (by simp)
      simpa using this
    have hv0 : parlist.get? i = some (parlist.get ⟨i, hi⟩) := List.get?_eq_get hi
    have hgo : fitparameters.checkboundsGo fp (k0 :: ks) i parlist =
        (if parlist.get ⟨i, hi⟩ < mn then
          Except.error (BoundsErr.outOfBounds k0 (parlist.get ⟨i, hi⟩) mn true)
        else if parlist.get ⟨i, hi⟩ > mx then
          Except.error (BoundsErr.outOfBounds k0 (parlist.get ⟨i, hi⟩) mx false)
        else fitparameters.checkboundsGo fp ks (i + 1) parlist) := by
      simp only [fitparameters.checkboundsGo, hfr0, hv0, hmn', hmx']
    rw [hgo] at he
    by_cases h1 : parlist.get ⟨i, hi⟩ < mn
    · rw [if_pos h1] at he
      injection he with he
      exact ⟨k0, parlist.get ⟨i, hi⟩, mn, true, he.symm⟩
    · rw [if_neg h1] at he
      by_cases h2 : parlist.get ⟨i, hi⟩ > mx
      · rw [if_pos h2] at he
        injection he with he
        exact ⟨k0, parlist.get ⟨i, hi⟩, mx, false, he.symm⟩
      · rw [if_neg h2] at he
        exact ih fp (i + 1) parlist
          (fun k hk => hwf k (List.mem_cons_of_mem k0 hk))
          (fun j hj => by
            have := hlen (j + 1) (by simpa using Nat.succ_lt_succ hj)
            omega) e he

/-- Claim C5: under a well-formed registry and a vector of free-key length,
`checkbounds` succeeds exactly when every free component lies inside its
`[min, max]` (boundary-equal values pass), it raises exactly when some
component is strictly outside, and every failure it raises carries the
out-of-bounds data.  The embedding is a pure observer, so the registry is
unchanged on success by construction. -/
theorem C5_checkbounds_iff (r : fitparameters) (parlist : List ℚ)
    (hwf : ∀ k ∈ r.keysfit,
      ∃ fr, r.fitpars k = some fr ∧ fr.pmin.isSome ∧ fr.pmax.isSome)
    (hlen : parlist.length = r.keysfit.length) :
    (fitparameters.checkbounds r parlist = Except.ok () ↔
      ∀ j k fr, r.keysfit.get? j = some k → r.fitpars k = some fr →
        fr.pmin.getD 0 ≤ parlist.getD j 0 ∧ parlist.getD j 0 ≤ fr.pmax.getD 0)
    ∧ ((∃ e, fitparameters.checkbounds r parlist = Except.error e) ↔
      ∃ j, ∃ k, ∃ fr, r.keysfit.get? j = some k ∧ r.fitpars k = some fr ∧
        (parlist.getD j 0 < fr.pmin.getD 0 ∨ fr.pmax.getD 0 < parlist.getD j 0))
    ∧ (∀ e, fitparameters.checkbounds r parlist = Except.error e →
        ∃ k v b low, e = BoundsErr.outOfBounds k v b low) := by
  have hlen' : ∀ j, j < r.keysfit.length → 0 + j < parlist.length := by
    intro j hj; omega
  have hok := checkboundsGo_ok_iff r.keysfit r.fitpars 0 parlist hwf hlen'
  have herr := checkboundsGo_error_shape r.keysfit r.fitpars 0 parlist hwf hlen'
  have hok' : fitparameters.checkbounds r parlist = Except.ok () ↔
      ∀ j k fr, r.keysfit.get? j = some k → r.fitpars k = some fr →
        fr.pmin.getD 0 ≤ parlist.getD j 0 ∧ parlist.getD j 0 ≤ fr.pmax.getD 0 := by
    rw [fitparameters.checkbounds, hok]
    constructor
    · intro h j k fr h1 h2
      have := h j k fr h1 h2
      simpa using this
    · intro h j k fr h1 h2
      have := h j k fr h1 h2
      simpa using this
  refine ⟨hok', ?_, herr⟩
  constructor
  · intro ⟨e, he⟩
    have hnok : ¬(fitparameters.checkbounds r parlist = Except.ok ()) := by
      rw [he]; simp
    rw [hok'] at hnok
    push_neg at hnok
    obtain ⟨j, k, fr, h1, h2, h3⟩ := hnok
    refine ⟨j, k, fr, h1, h2, ?_⟩
    by_cases hmin : fr.pmin.getD 0 ≤ parlist.getD j 0
    · exact Or.inr (h3 hmin)
    · exact Or.inl (not_le.mp hmin)
  · intro ⟨j, k, fr, h1, h2, h3⟩
    have hnok : ¬(fitparameters.checkbounds r parlist = Except.ok ()) := by
      rw [hok']
      intro hall
      have := hall j k fr h1 h2
      rcases h3 with h | h
      · exact absurd this.1 (not_le.mpr h)
      · exact absurd this.2 (not_le.mpr h)
    cases hcb : fitparameters.checkbounds r parlist with
    | ok u => cases u; exact absurd hcb hnok
    | error e => exact ⟨e, rfl⟩

/-- Concrete registry for the C5 witness: one free key with bounds [0, 5]. -/
def rC5 : fitparameters := fitparameters.empty.add "a" 1 false 0 5 none false

/-- Claim C5 witness: the boundary-equal vector [5] passes the bounds check
of the concrete registry. -/
theorem C5_witness :
    ((∀ k ∈ rC5.keysfit,
        ∃ fr, rC5.fitpars k = some fr ∧ fr.pmin.isSome ∧ fr.pmax.isSome) ∧
      ([5] : List ℚ).length = rC5.keysfit.length)
    ∧ ((fitparameters.checkbounds rC5 [5] = Except.ok () ↔
        ∀ j k fr, rC5.keysfit.get? j = some k → rC5.fitpars k = some fr →
          fr.pmin.getD 0 ≤ ([5] : List ℚ).getD j 0 ∧
            ([5] : List ℚ).getD j 0 ≤ fr.pmax.getD 0)
      ∧ ((∃ e, fitparameters.checkbounds rC5 [5] = Except.error e) ↔
        ∃ j, ∃ k, ∃ fr, rC5.keysfit.get? j = some k ∧ rC5.fitpars k = some fr ∧
          (([5] : List ℚ).getD j 0 < fr.pmin.getD 0 ∨
            fr.pmax.getD 0 < ([5] : List ℚ).getD j 0))
      ∧ (∀ e, fitparameters.checkbounds rC5 [5] = Except.error e →
          ∃ k v b low, e = BoundsErr.outOfBounds k v b low)) :=
  ⟨⟨by decide, by decide⟩, C5_checkbounds_iff rC5 [5] (by decide) (by decide)⟩

/-- Scalar multiple pulled out of a list sum. -/
theorem sum_map_mul (c : ℚ) (l : List ℚ) :
    (l.map fun v => c * v).sum = c * l.sum := by
  simpa using List.sum_map_mul_left l id c

/-- Scalar multiple pulled out of a matrix sum. -/
theorem matSum_map_mul (c : ℚ) (M : List (List ℚ)) :
    matSum (M.map fun r => r.map fun v => c * v) = c * matSum M := by
  unfold matSum
  rw [List.map_map]
  have h1 : M.map (List.sum ∘ fun r => r.map fun v => c * v) =
      M.map fun r => c * r.sum := by
    apply List.map_congr_left
    intro r _
    exact sum_map_mul c r
  rw [h1]
  simpa using List.sum_map_mul_left M List.sum c

/-- Claim C1: on the default-grid path of `periodradius` (no xbin, ybin,
xgrid or ygrid), for a working configuration with nonzero `pps` and `scale`
and a density function whose working-grid evaluation has nonzero total sum,
the returned joint density divided by `pps * scale` sums to 1 over the grid
cells. -/
theorem C1_default_joint_normalized (rf : RealFuns) (ep : EposPDF)
    (Init : Bool) (pps : ℚ) (pdf : List (List ℚ)) (pdf_X pdf_Y : List ℚ)
    (fpar2d : List ℚ)
    (h2d : ep.fitpars.get2d Init = some fpar2d)
    (hres : periodradius rf ep Init none none none none none =
      some (pps, pdf, pdf_X, pdf_Y))
    (hS : matSum (ep.func ep.X_in ep.Y_in fpar2d) ≠ 0)
    (hpps : pps ≠ 0) (hscale : ep.scale ≠ 0) :
    matSum (pdf.map fun row => row.map fun v => v / (pps * ep.scale)) = 1 := by
  unfold periodradius at hres
  cases hpget : ep.fitpars.get "pps" Init with
  | none => rw [hpget] at hres; simp at hres
  | some pps' =>
    rw [hpget, h2d] at hres
    simp only [Option.isSome_none, Bool.or_self, if_false, Bool.false_eq_true,
      Option.some.injEq, Prod.mk.injEq] at hres
    obtain ⟨hpps', hpdf, -, -⟩ := hres
    rw [hpps'] at hpdf
    rw [← hpdf]
    rw [List.map_map]
    have hcell : (fun row => List.map (fun v => v / (pps * ep.scale)) row) ∘
        (fun (row : List ℚ) => row.map fun v =>
          pps * v / matSum (ep.func ep.X_in ep.Y_in fpar2d) * ep.scale) =
        fun (row : List ℚ) => row.map fun v =>
          (matSum (ep.func ep.X_in ep.Y_in fpar2d))⁻¹ * v := by
      funext row
      simp only [Function.comp_apply, List.map_map]
      apply List.map_congr_left
      intro v _
      simp only [Function.comp_apply]
      field_simp
      ring
    rw [hcell, matSum_map_mul]
    exact inv_mul_cancel₀ hS

/-- Concrete registry for the C1 witness: fixed "pps" = 1, no 2D keys. -/
def rC1 : fitparameters := fitparameters.empty.add "pps" 1 true 0 0 none false

/-- Concrete evaluator state for the C1 witness: constant density 1 on a
1-cell working grid. -/
def epC1 : EposPDF :=
  { fitpars := rC1
    func := fun X _ _ => X.map fun row => row.map fun _ => 1
    X_in := [[7]]
    Y_in := [[7]]
    MC_xvar := [1]
    MC_yvar := [1]
    scale := 1
    scale_x := 1
    scale_in_y := 1 }

/-- Claim C1 witness: on the concrete one-cell configuration, the joint
density renormalizes to total mass 1. -/
theorem C1_witness :
    (fitparameters.get2d epC1.fitpars true = some []
      ∧ periodradius rfTrivial epC1 true none none none none none =
          some (1, [[1]], [1], [1])
      ∧ matSum (epC1.func epC1.X_in epC1.Y_in []) ≠ 0
      ∧ (1 : ℚ) ≠ 0 ∧ epC1.scale ≠ 0)
    ∧ matSum (([[1]] : List (List ℚ)).map fun row =>
        row.map fun v => v / (1 * epC1.scale)) = 1 :=
  ⟨⟨by decide, by decide, by decide, by decide, by decide⟩,
    C1_default_joint_normalized rfTrivial epC1 true 1 [[1]] [1] [1] []
      (by decide) (by decide) (by decide) (by decide) (by decide)⟩

/-- Clamping against a bound below the value is the identity. -/
theorem qmax_eq_left {a b : ℚ} (h : b ≤ a) : qmax a b = a := if_pos h

/-- Clamping against a bound above the value is the identity. -/
theorem qmin_eq_left {a b : ℚ} (h : a ≤ b) : qmin a b = a := if_pos h

/-- A strictly sorted list starts at its minimum. -/
theorem sorted_getD_zero_le (a : List ℚ) (hs : a.Pairwise (· < ·)) :
    ∀ x ∈ a, a.getD 0 0 ≤ x := by
  intro x hx
  cases a with
  | nil => simp at hx
  | cons y ys =>
    rw [List.getD_cons_zero]
    rcases List.mem_cons.mp hx with h | h
    · exact le_of_eq h.symm
    · exact le_of_lt ((List.pairwise_cons.mp hs).1 x h)

/-- A strictly sorted list ends at its maximum. -/
theorem sorted_le_getD_last (a : List ℚ) (hs : a.Pairwise (· < ·)) :
    ∀ x ∈ a, x ≤ a.getD (a.length - 1) 0 := by
  induction a with
  | nil => intro x hx; simp at hx
  | cons y ys ih =>
    intro x hx
    cases ys with
    | nil =>
      simp only [List.mem_singleton] at hx
      simp [hx]
    | cons z zs =>
      have hlen : (y :: z :: zs).length - 1 = (z :: zs).length - 1 + 1 := by
        simp
      rw [hlen, List.getD_cons_succ]
      rcases List.mem_cons.mp hx with h | h
      · subst h
        have hz : x < z := (List.pairwise_cons.mp hs).1 z (by simp)
        have hrest := ih (List.pairwise_cons.mp hs).2 z (by simp)
        exact le_trans (le_of_lt hz) hrest
      · exact ih (List.pairwise_cons.mp hs).2 x h

/-- The left insertion point never exceeds the array length. -/
theorem searchsorted_le_length (a : List ℚ) (v : ℚ) :
    searchsorted_left a v ≤ a.length := by
  induction a with
  | nil => simp [searchsorted_left]
  | cons x xs ih =>
    rw [searchsorted_left]
    by_cases h0 : x < v
    · rw [if_pos h0]; simpa using ih
    · rw [if_neg h0]; simp

/-- The left insertion point is monotone in the searched value. -/
theorem searchsorted_mono (a : List ℚ) (t0 t1 : ℚ) (h : t0 ≤ t1) :
    searchsorted_left a t0 ≤ searchsorted_left a t1 := by
  induction a with
  | nil => simp [searchsorted_left]
  | cons x xs ih =>
    rw [searchsorted_left, searchsorted_left]
    by_cases h0 : x < t0
    · rw [if_pos h0, if_pos (lt_of_lt_of_le h0 h)]
      omega
    · rw [if_neg h0]
      exact Nat.zero_le _

/-- Entries strictly before the left insertion point are strictly below the
searched value. -/
theorem searchsorted_getD_lt (a : List ℚ) (v : ℚ) :
    ∀ i, i < searchsorted_left a v → a.getD i 0 < v := by
  induction a with
  | nil => intro i hi; simp [searchsorted_left] at hi
  | cons x xs ih =>
    intro i hi
    rw [searchsorted_left] at hi
    by_cases h0 : x < v
    · rw [if_pos h0] at hi
      match i with
      | 0 => simpa using h0
      | i' + 1 =>
        rw [List.getD_cons_succ]
        exact ih i' (by omega)
    · rw [if_neg h0] at hi; omega

/-- On a strictly sorted list, entries at or after the left insertion point
are at or above the searched value. -/
theorem searchsorted_getD_ge (a : List ℚ) (v : ℚ) (hs : a.Pairwise (· < ·)) :
    ∀ i, searchsorted_left a v ≤ i → i < a.length → v ≤ a.getD i 0 := by
  induction a with
  | nil => intro i _ hi; simp at hi
  | cons x xs ih =>
    intro i hssl hi
    rw [searchsorted_left] at hssl
    by_cases h0 : x < v
    · rw [if_pos h0] at hssl
      match i with
      | 0 => omega
      | i' + 1 =>
        rw [List.getD_cons_succ]
        exact ih (List.pairwise_cons.mp hs).2 i' (by omega) (by simpa using hi)
    · rw [if_neg h0] at hssl
      match i with
      | 0 => simpa using not_lt.mp h0
      | i' + 1 =>
        rw [List.getD_cons_succ]
        have hi' : i' < xs.length := by simpa using hi
        have hmem : xs.getD i' 0 ∈ xs := by
          rw [List.getD_eq_getElem?_getD]
          rw [List.getElem?_eq_getElem hi']
          exact List.getElem_mem hi'
        have hgt : x < xs.getD i' 0 := (List.pairwise_cons.mp hs).1 _ hmem
        exact le_trans (not_lt.mp h0) (le_of_lt hgt)

/-- Length of a Python slice within the array. -/
theorem npSlice_length (a : List ℚ) (i j : ℕ) (hj : j ≤ a.length) :
    (npSlice a i j).length = j - i := by
  unfold npSlice
  rw [List.length_take, List.length_drop]
  rw [Nat.min_def]
  split <;> omega

/-- Element of a Python slice read back from the array. -/
theorem npSlice_getD (a : List ℚ) (i j k : ℕ) (hk : k < j - i) :
    (npSlice a i j).getD k 0 = a.getD (i + k) 0 := by
  unfold npSlice
  rw [List.getD_eq_getElem?_getD, List.getD_eq_getElem?_getD,
    ← List.get?_eq_getElem?, ← List.get?_eq_getElem?]
  rw [List.get?_take hk, List.get?_drop]

/-- Bracketing property of `_trimarray` windowing: on a strictly sorted axis
with at least one sample strictly beyond each trim edge, the retained slice
is nonempty, starts at or below the lower trim edge and ends at or above the
upper trim edge — the interpolation-safe trimming contract. -/
theorem trimarray_brackets (a : List ℚ) (t0 t1 : ℚ)
    (hs : a.Pairwise (· < ·)) (h01 : t0 ≤ t1)
    (hlo : ∃ x ∈ a, x < t0) (hhi : ∃ x ∈ a, t1 < x) (hlen2 : 2 ≤ a.length) :
    npSlice a (_trimarray a (t0, t1)).1 (_trimarray a (t0, t1)).2 ≠ []
    ∧ (npSlice a (_trimarray a (t0, t1)).1 (_trimarray a (t0, t1)).2).getD 0 0 ≤ t0
    ∧ t1 ≤ (npSlice a (_trimarray a (t0, t1)).1 (_trimarray a (t0, t1)).2).getD
        ((npSlice a (_trimarray a (t0, t1)).1 (_trimarray a (t0, t1)).2).length - 1) 0 := by
  obtain ⟨x0, hx0mem, hx0⟩ := hlo
  obtain ⟨x1, hx1mem, hx1⟩ := hhi
  have hhead : a.getD 0 0 < t0 :=
    lt_of_le_of_lt (sorted_getD_zero_le a hs x0 hx0mem) hx0
  have hlast : t1 < a.getD (a.length - 1) 0 :=
    lt_of_lt_of_le hx1 (sorted_le_getD_last a hs x1 hx1mem)
  have hssl0_pos : 1 ≤ searchsorted_left a t0 := by
    by_contra h
    have h0 : searchsorted_left a t0 ≤ 0 := by omega
    have := searchsorted_getD_ge a t0 hs 0 h0 (by omega)
    exact absurd this (not_le.mpr hhead)
  have hssl0le := searchsorted_le_length a t0
  have hssl1le := searchsorted_le_length a t1
  have hmono := searchsorted_mono a t0 t1 h01
  have hfinal : ∀ im ix : ℕ, im < ix → ix ≤ a.length → a.getD im 0 ≤ t0 →
      t1 ≤ a.getD (ix - 1) 0 →
      (npSlice a im ix ≠ [] ∧ (npSlice a im ix).getD 0 0 ≤ t0 ∧
        t1 ≤ (npSlice a im ix).getD ((npSlice a im ix).length - 1) 0) := by
    intro im ix h1 h2 h3 h4
    have hlen : (npSlice a im ix).length = ix - im := npSlice_length a im ix h2
    refine ⟨?_, ?_, ?_⟩
    · intro hnil
      rw [hnil] at hlen
      simp only [List.length_nil] at hlen
      omega
    · rw [npSlice_getD a im ix 0 (by omega)]
      simpa using h3
    · rw [hlen, npSlice_getD a im ix (ix - im - 1) (by omega)]
      have heq : im + (ix - im - 1) = ix - 1 := by omega
      rw [heq]
      exact h4
  have ht : _trimarray a (t0, t1) =
      (if t0 < a.getD 1 0 then 0 else searchsorted_left a t0 - 1,
       if t1 > a.getD (a.length - 2) 0 then a.length
       else searchsorted_left a t1 + 1) := rfl
  rw [ht]
  by_cases hL : t0 < a.getD 1 0
  · rw [if_pos hL]
    by_cases hU : t1 > a.getD (a.length - 2) 0
    · rw [if_pos hU]
      exact hfinal 0 a.length (by omega) (le_refl _) (le_of_lt hhead)
        (le_of_lt hlast)
    · rw [if_neg hU]
      have hssl1 : searchsorted_left a t1 ≤ a.length - 2 := by
        by_contra h
        have := searchsorted_getD_lt a t1 (a.length - 2) (by omega)
        exact absurd (not_lt.mp hU) (not_le.mpr this)
      refine hfinal 0 (searchsorted_left a t1 + 1) (by omega) (by omega)
        (le_of_lt hhead) ?_
      have heq : searchsorted_left a t1 + 1 - 1 = searchsorted_left a t1 := by
        omega
      rw [heq]
      exact searchsorted_getD_ge a t1 hs (searchsorted_left a t1) (le_refl _)
        (by omega)
  · rw [if_neg hL]
    have hA : a.getD (searchsorted_left a t0 - 1) 0 ≤ t0 :=
      le_of_lt (searchsorted_getD_lt a t0 (searchsorted_left a t0 - 1) (by omega))
    by_cases hU : t1 > a.getD (a.length - 2) 0
    · rw [if_pos hU]
      exact hfinal (searchsorted_left a t0 - 1) a.length (by omega) (le_refl _)
        hA (le_of_lt hlast)
    · rw [if_neg hU]
      have hssl1 : searchsorted_left a t1 ≤ a.length - 2 := by
        by_contra h
        have := searchsorted_getD_lt a t1 (a.length - 2) (by omega)
        exact absurd (not_lt.mp hU) (not_le.mpr this)
      refine hfinal (searchsorted_left a t0 - 1) (searchsorted_left a t1 + 1)
        (by omega) (by omega) hA ?_
      have heq : searchsorted_left a t1 + 1 - 1 = searchsorted_left a t1 := by
        omega
      rw [heq]
      exact searchsorted_getD_ge a t1 hs (searchsorted_left a t1) (le_refl _)
        (by omega)

/-- Claim C3: for strictly sorted efficiency axes, trim intervals inside
each axis's extent with at least one sample strictly beyond each trim edge,
the working axes produced by `set_ranges` bracket the trim intervals:
`MC_xvar[0] ≤ xtrim[0]` and `xtrim[1] ≤ MC_xvar[-1]`, and likewise in y. -/
theorem C3_set_ranges_brackets (rf : RealFuns)
    (Range Observation DetectionEff : Bool)
    (eff_xvar eff_yvar : List ℚ) (eff_2D : List (List ℚ))
    (t0x t1x t0y t1y : ℚ) (xzoom yzoom : Option (ℚ × ℚ)) (LogArea : Bool)
    (st : RangeState)
    (hxs : eff_xvar.Pairwise (· < ·)) (hys : eff_yvar.Pairwise (· < ·))
    (hx01 : t0x ≤ t1x) (hy01 : t0y ≤ t1y)
    (hxlo : ∃ u ∈ eff_xvar, u < t0x) (hxhi : ∃ u ∈ eff_xvar, t1x < u)
    (hylo : ∃ u ∈ eff_yvar, u < t0y) (hyhi : ∃ u ∈ eff_yvar, t1y < u)
    (hxlen : 2 ≤ eff_xvar.length) (hylen : 2 ≤ eff_yvar.length)
    (hrng : epos.set_ranges rf Range Observation DetectionEff eff_xvar eff_yvar
      eff_2D (eff_xvar.getD 0 0, eff_xvar.getD (eff_xvar.length - 1) 0)
      (eff_yvar.getD 0 0, eff_yvar.getD (eff_yvar.length - 1) 0)
      (some (t0x, t1x)) (some (t0y, t1y)) xzoom yzoom LogArea = Except.ok st) :
    (st.MC_xvar ≠ [] ∧ st.MC_xvar.getD 0 0 ≤ t0x ∧
      t1x ≤ st.MC_xvar.getD (st.MC_xvar.length - 1) 0)
    ∧ (st.MC_yvar ≠ [] ∧ st.MC_yvar.getD 0 0 ≤ t0y ∧
      t1y ≤ st.MC_yvar.getD (st.MC_yvar.length - 1) 0) := by
  have hst : st = set_ranges_core rf eff_xvar eff_yvar eff_2D
      (eff_xvar.getD 0 0, eff_xvar.getD (eff_xvar.length - 1) 0)
      (eff_yvar.getD 0 0, eff_yvar.getD (eff_yvar.length - 1) 0)
      (some (t0x, t1x)) (some (t0y, t1y)) xzoom yzoom LogArea := by
    unfold epos.set_ranges at hrng
    split at hrng
    · exact absurd hrng (by simp)
    · split at hrng
      · exact absurd hrng (by simp)
      · split at hrng
        · exact absurd hrng (by simp)
        · exact (Except.ok.injEq _ _ ▸ hrng).symm
  subst hst
  obtain ⟨ux0, hux0mem, hux0⟩ := hxlo
  obtain ⟨uy0, huy0mem, huy0⟩ := hylo
  obtain ⟨ux1, hux1mem, hux1⟩ := hxhi
  obtain ⟨uy1, huy1mem, huy1⟩ := hyhi
  have hxheadle : eff_xvar.getD 0 0 ≤ t0x :=
    le_of_lt (lt_of_le_of_lt (sorted_getD_zero_le _ hxs ux0 hux0mem) hux0)
  have hyheadle : eff_yvar.getD 0 0 ≤ t0y :=
    le_of_lt (lt_of_le_of_lt (sorted_getD_zero_le _ hys uy0 huy0mem) huy0)
  have hxlastge : t1x ≤ eff_xvar.getD (eff_xvar.length - 1) 0 :=
    le_of_lt (lt_of_lt_of_le hux1 (sorted_le_getD_last _ hxs ux1 hux1mem))
  have hylastge : t1y ≤ eff_yvar.getD (eff_yvar.length - 1) 0 :=
    le_of_lt (lt_of_lt_of_le huy1 (sorted_le_getD_last _ hys uy1 huy1mem))
  have hMCx : (set_ranges_core rf eff_xvar eff_yvar eff_2D
      (eff_xvar.getD 0 0, eff_xvar.getD (eff_xvar.length - 1) 0)
      (eff_yvar.getD 0 0, eff_yvar.getD (eff_yvar.length - 1) 0)
      (some (t0x, t1x)) (some (t0y, t1y)) xzoom yzoom LogArea).MC_xvar =
      npSlice eff_xvar (_trimarray eff_xvar (t0x, t1x)).1
        (_trimarray eff_xvar (t0x, t1x)).2 := by
    simp only [set_ranges_core]
    rw [qmax_eq_left hxheadle, qmin_eq_left hxlastge]
  have hMCy : (set_ranges_core rf eff_xvar eff_yvar eff_2D
      (eff_xvar.getD 0 0, eff_xvar.getD (eff_xvar.length - 1) 0)
      (eff_yvar.getD 0 0, eff_yvar.getD (eff_yvar.length - 1) 0)
      (some (t0x, t1x)) (some (t0y, t1y)) xzoom yzoom LogArea).MC_yvar =
      npSlice eff_yvar (_trimarray eff_yvar (t0y, t1y)).1
        (_trimarray eff_yvar (t0y, t1y)).2 := by
    simp only [set_ranges_core]
    rw [qmax_eq_left hyheadle, qmin_eq_left hylastge]
  rw [hMCx, hMCy]
  exact ⟨trimarray_brackets eff_xvar t0x t1x hxs hx01 ⟨ux0, hux0mem, hux0⟩
      ⟨ux1, hux1mem, hux1⟩ hxlen,
    trimarray_brackets eff_yvar t0y t1y hys hy01 ⟨uy0, huy0mem, huy0⟩
      ⟨uy1, huy1mem, huy1⟩ hylen⟩

/-- Concrete range state for the C3 witness: trim [2, 3] inside the axis
[1, 2, 3, 4]. -/
def stC3 : RangeState :=
  set_ranges_core rfTrivial [1, 2, 3, 4] [1, 2, 3, 4]
    [[1, 1, 1, 1], [1, 1, 1, 1], [1, 1, 1, 1], [1, 1, 1, 1]] (1, 4) (1, 4)
    (some (2, 3)) (some (2, 3)) none none false

/-- Claim C3 witness: the working axes of the concrete configuration bracket
the requested trim [2, 3]. -/
theorem C3_witness :
    (([1, 2, 3, 4] : List ℚ).Pairwise (· < ·) ∧ (2 : ℚ) ≤ 3
      ∧ (∃ u ∈ ([1, 2, 3, 4] : List ℚ), u < 2)
      ∧ (∃ u ∈ ([1, 2, 3, 4] : List ℚ), (3 : ℚ) < u)
      ∧ 2 ≤ ([1, 2, 3, 4] : List ℚ).length)
    ∧ ((stC3.MC_xvar ≠ [] ∧ stC3.MC_xvar.getD 0 0 ≤ 2 ∧
        (3 : ℚ) ≤ stC3.MC_xvar.getD (stC3.MC_xvar.length - 1) 0)
      ∧ (stC3.MC_yvar ≠ [] ∧ stC3.MC_yvar.getD 0 0 ≤ 2 ∧
        (3 : ℚ) ≤ stC3.MC_yvar.getD (stC3.MC_yvar.length - 1) 0)) :=
  ⟨⟨by decide, by decide, by decide, by decide, by decide⟩,
    C3_set_ranges_brackets rfTrivial false true true [1, 2, 3, 4] [1, 2, 3, 4]
      [[1, 1, 1, 1], [1, 1, 1, 1], [1, 1, 1, 1], [1, 1, 1, 1]] 2 3 2 3
      none none false stC3 (by decide) (by decide) (by decide) (by decide)
      (by decide) (by decide) (by decide) (by decide) (by decide) (by decide)
      rfl⟩

/-- Totality of the lexsort index order. -/
theorem lexIdxLE_total (p s : List ℚ) (i j : ℕ) :
    lexIdxLE p s i j ∨ lexIdxLE p s j i := by
  unfold lexIdxLE
  rcases lt_trichotomy (p.getD i 0) (p.getD j 0) with h | h | h
  · exact Or.inl (Or.inl h)
  · rcases lt_trichotomy (s.getD i 0) (s.getD j 0) with h2 | h2 | h2
    · exact Or.inl (Or.inr ⟨h, Or.inl h2⟩)
    · rcases Nat.le_total i j with h3 | h3
      · exact Or.inl (Or.inr ⟨h, Or.inr ⟨h2, h3⟩⟩)
      · exact Or.inr (Or.inr ⟨h.symm, Or.inr ⟨h2.symm, h3⟩⟩)
    · exact Or.inr (Or.inr ⟨h.symm, Or.inl h2⟩)
  · exact Or.inr (Or.inl h)

/-- Transitivity of the lexsort index order. -/
theorem lexIdxLE_trans (p s : List ℚ) (i j k : ℕ)
    (hij : lexIdxLE p s i j) (hjk : lexIdxLE p s j k) : lexIdxLE p s i k := by
  unfold lexIdxLE at hij hjk ⊢
  rcases hij with h1 | ⟨e1, h1⟩
  · rcases hjk with h2 | ⟨e2, _⟩
    · exact Or.inl (lt_trans h1 h2)
    · exact Or.inl (e2 ▸ h1)
  · rcases hjk with h2 | ⟨e2, h2⟩
    · exact Or.inl (e1 ▸ h2)
    · refine Or.inr ⟨e1.trans e2, ?_⟩
      rcases h1 with h1 | ⟨f1, h1⟩
      · rcases h2 with h2 | ⟨f2, _⟩
        · exact Or.inl (lt_trans h1 h2)
        · exact Or.inl (f2 ▸ h1)
      · rcases h2 with h2 | ⟨f2, h2⟩
        · exact Or.inl (f1 ▸ h2)
        · exact Or.inr ⟨f1.trans f2, Nat.le_trans h1 h2⟩

/-- Reading three equal-length lists back through `getD` over the index
range reproduces their zip. -/
theorem map_getD_range_zip3 (ids : List ℚ) :
    ∀ (xs ys : List ℚ), xs.length = ids.length → ys.length = ids.length →
    (List.range ids.length).map
        (fun i => (xs.getD i 0, ys.getD i 0, ids.getD i 0)) =
      xs.zip (ys.zip ids) := by
  induction ids with
  | nil =>
    intro xs ys hx hy
    rw [List.length_eq_zero.mp hx, List.length_eq_zero.mp hy]
    simp
  | cons d ds ih =>
    intro xs ys hx hy
    cases xs with
    | nil => simp at hx
    | cons x xs' =>
      cases ys with
      | nil => simp at hy
      | cons y ys' =>
        have hlen : (d :: ds).length = ds.length + 1 := by simp
        rw [hlen, List.range_succ_eq_map, List.map_cons, List.map_map]
        have hx' : xs'.length = ds.length := by simpa using hx
        have hy' : ys'.length = ds.length := by simpa using hy
        have hfun : ((fun i => ((x :: xs').getD i 0, (y :: ys').getD i 0,
            (d :: ds).getD i 0)) ∘ Nat.succ) =
            fun i => (xs'.getD i 0, ys'.getD i 0, ds.getD i 0) := by
          funext i
          simp [Function.comp, List.getD_cons_succ]
        rw [hfun, ih xs' ys' hx' hy']
        simp

/-- Claim C10: `set_observation` stores the catalog reordered into ascending
(star-identifier, then period) order — exactly a permutation of the input
(period, size, starID) triples, with the stored (starID, period) pairs
pairwise sorted. -/
theorem C10_set_observation_sorted (xvar yvar starID : List ℚ) (nstars : ℚ)
    (obs : ObsState)
    (hxlen : xvar.length = starID.length) (hylen : yvar.length = starID.length)
    (hres : epos.set_observation xvar yvar starID nstars = Except.ok obs) :
    (obs.obs_xvar.zip (obs.obs_yvar.zip obs.obs_starID)).Perm
      (xvar.zip (yvar.zip starID))
    ∧ (obs.obs_starID.zip obs.obs_xvar).Pairwise
        (fun p q => p.1 < q.1 ∨ (p.1 = q.1 ∧ p.2 ≤ q.2)) := by
  have hperm : (np_lexsort xvar starID).Perm (List.range starID.length) :=
    List.perm_insertionSort _ _
  have hmemlt : ∀ i ∈ np_lexsort xvar starID, i < starID.length := by
    intro i hi
    exact List.mem_range.mp (hperm.mem_iff.mp hi)
  have hall : (np_lexsort xvar starID).all (fun i => i < yvar.length) = true := by
    rw [List.all_eq_true]
    intro i hi
    simpa [hylen] using hmemlt i hi
  unfold epos.set_observation at hres
  rw [if_pos hxlen, if_pos hall] at hres
  injection hres with hres
  have hx : obs.obs_xvar = (np_lexsort xvar starID).map fun i => xvar.getD i 0 := by
    rw [← hres]
  have hy : obs.obs_yvar = (np_lexsort xvar starID).map fun i => yvar.getD i 0 := by
    rw [← hres]
  have hid : obs.obs_starID =
      (np_lexsort xvar starID).map fun i => starID.getD i 0 := by
    rw [← hres]
  constructor
  · rw [hx, hy, hid, List.zip_map', List.zip_map']
    have h1 := hperm.map fun i => (xvar.getD i 0, yvar.getD i 0, starID.getD i 0)
    rw [map_getD_range_zip3 starID xvar yvar hxlen hylen] at h1
    exact h1
  · rw [hid, hx, List.zip_map']
    have hsorted : (np_lexsort xvar starID).Pairwise (lexIdxLE starID xvar) := by
      haveI : IsTotal ℕ (lexIdxLE starID xvar) := ⟨lexIdxLE_total starID xvar⟩
      haveI : IsTrans ℕ (lexIdxLE starID xvar) :=
        ⟨lexIdxLE_trans starID xvar⟩
      exact List.sorted_insertionSort _ _
    refine List.Pairwise.map _ ?_ hsorted
    intro i j hij
    rcases hij with h | ⟨e, h2⟩
    · exact Or.inl h
    · refine Or.inr ⟨e, ?_⟩
      rcases h2 with h2 | ⟨f, _⟩
      · exact le_of_lt h2
      · exact le_of_eq f

/-- Concrete stored observation for the C10 witness. -/
def obsC10 : ObsState :=
  { obs_xvar := [20, 5, 10], obs_yvar := [2, 3, 1], obs_starID := [1, 2, 2]
    nstars := 1 }

/-- Claim C10 witness: the catalog periods [10, 20, 5] with sizes [1, 2, 3]
and stars [2, 1, 2] is stored as the (star, period)-sorted permutation. -/
theorem C10_witness :
    (([10, 20, 5] : List ℚ).length = ([2, 1, 2] : List ℚ).length
      ∧ ([1, 2, 3] : List ℚ).length = ([2, 1, 2] : List ℚ).length
      ∧ epos.set_observation [10, 20, 5] [1, 2, 3] [2, 1, 2] 1 =
          Except.ok obsC10)
    ∧ ((obsC10.obs_xvar.zip (obsC10.obs_yvar.zip obsC10.obs_starID)).Perm
        (([10, 20, 5] : List ℚ).zip (([1, 2, 3] : List ℚ).zip
          ([2, 1, 2] : List ℚ)))
      ∧ (obsC10.obs_starID.zip obsC10.obs_xvar).Pairwise
          (fun p q => p.1 < q.1 ∨ (p.1 = q.1 ∧ p.2 ≤ q.2))) :=
  ⟨⟨by decide, by decide, by decide⟩,
    C10_set_observation_sorted [10, 20, 5] [1, 2, 3] [2, 1, 2] 1 obsC10
      (by decide) (by decide) (by decide)⟩

/-- Fancy indexing succeeds when all indices are in range. -/
theorem fancyIndex_eq_some (l : List ℚ) (order : List ℕ)
    (h : ∀ i ∈ order, i < l.length) :
    fancyIndex l order = some (order.map fun i => l.getD i 0) := by
  unfold fancyIndex
  rw [if_pos]
  rw [List.all_eq_true]
  intro i hi
  simpa using h i hi

/-- Any failure of `popReindex` is an index error. -/
theorem popReindex_error_shape (order : List ℕ) (l : Option (List ℚ))
    (e : PopErr) (h : popReindex order l = Except.error e) :
    e = PopErr.indexError := by
  unfold popReindex at h
  cases l with
  | none => simp at h
  | some a =>
    try dsimp only at h
    cases ha : fancyIndex a order with
    | none => rw [ha] at h; injection h with h; exact h.symm
    | some a' => rw [ha] at h; simp at h

/-- Any failure of the multi-planet branch is a lexsort shape error or an
index error, never the sma/mass length failure. -/
theorem set_population_multi_error_shape (sma mass ID P : List ℚ)
    (inc tag : Option (List ℚ)) (e : PopErr)
    (h : epos.set_population_multi sma mass ID P inc tag = Except.error e) :
    e = PopErr.lexsortShape ∨ e = PopErr.indexError := by
  unfold epos.set_population_multi at h
  by_cases hc : sma.length = ID.length
  · rw [if_pos hc] at h
    try dsimp only at h
    cases h1 : fancyIndex ID (np_lexsort sma ID) with
    | none =>
      rw [h1] at h
      try dsimp only at h
      injection h with h
      exact Or.inr h.symm
    | some ID' =>
      rw [h1] at h
      cases h2 : fancyIndex sma (np_lexsort sma ID) with
      | none =>
        rw [h2] at h
        try dsimp only at h
        injection h with h
        exact Or.inr h.symm
      | some sma' =>
        rw [h2] at h
        cases h3 : fancyIndex mass (np_lexsort sma ID) with
        | none =>
          rw [h3] at h
          try dsimp only at h
          injection h with h
          exact Or.inr h.symm
        | some M' =>
          rw [h3] at h
          cases h4 : fancyIndex P (np_lexsort sma ID) with
          | none =>
            rw [h4] at h
            try dsimp only at h
            injection h with h
            exact Or.inr h.symm
          | some P' =>
            rw [h4] at h
            try dsimp only at h
            cases h5 : popReindex (np_lexsort sma ID) inc with
            | error e' =>
              rw [h5] at h
              cases h6 : popReindex (np_lexsort sma ID) tag with
              | error e'' =>
                rw [h6] at h
                try dsimp only at h
                injection h with h
                subst h
                exact Or.inr (popReindex_error_shape _ _ _ h5)
              | ok tag' =>
                rw [h6] at h
                try dsimp only at h
                injection h with h
                subst h
                exact Or.inr (popReindex_error_shape _ _ _ h5)
            | ok inc' =>
              rw [h5] at h
              cases h6 : popReindex (np_lexsort sma ID) tag with
              | error e' =>
                rw [h6] at h
                try dsimp only at h
                injection h with h
                subst h
                exact Or.inr (popReindex_error_shape _ _ _ h6)
              | ok tag' =>
                rw [h6] at h
                simp at h
  · rw [if_neg hc] at h
    injection h with h
    exact Or.inl h.symm

/-- Any failure of the `set_population` tail is the empty-catalog error. -/
theorem set_population_finish_error_shape (name : String) (npl ns : ℕ)
    (t : List ℚ × List ℚ × List ℚ × List ℚ × Option (List ℚ) ×
      Option (List ℚ) × Option (List ℚ)) (e : PopErr)
    (h : epos.set_population_finish name npl ns t = Except.error e) :
    e = PopErr.emptyCatalog := by
  unfold epos.set_population_finish at h
  split at h
  · injection h with h; exact h.symm
  · simp at h

/-- The `set_population` tail succeeds on nonempty mass and period arrays. -/
theorem set_population_finish_ok (name : String) (npl ns : ℕ)
    (t : List ℚ × List ℚ × List ℚ × List ℚ × Option (List ℚ) ×
      Option (List ℚ) × Option (List ℚ))
    (hM : t.2.2.1 ≠ []) (hP : t.2.2.2.1 ≠ []) :
    ∃ p, epos.set_population_finish name npl ns t = Except.ok p := by
  unfold epos.set_population_finish
  rw [if_neg (by rintro (h | h); exacts [hM h, hP h])]
  exact ⟨_, rfl⟩

/-- The dispatch never converts an error kind: it fails with the length
error only if its input already carries it, which the branches never do. -/
theorem set_population_tail_ne (name : String) (npl ns : ℕ)
    (am : Except PopErr (List ℚ × List ℚ × List ℚ × List ℚ × Option (List ℚ) ×
      Option (List ℚ) × Option (List ℚ)))
    (ham : ∀ e, am = Except.error e → e ≠ PopErr.inconsistentLength) :
    epos.set_population_tail name npl ns am ≠
      Except.error PopErr.inconsistentLength := by
  unfold epos.set_population_tail
  cases am with
  | error e =>
    intro h
    injection h with h
    exact ham e rfl h
  | ok t =>
    intro h
    exact absurd (set_population_finish_error_shape name npl ns t _ h) (by decide)

/-- The dispatch succeeds on a successful branch with nonempty arrays. -/
theorem set_population_tail_ok (name : String) (npl ns : ℕ)
    (am : Except PopErr (List ℚ × List ℚ × List ℚ × List ℚ × Option (List ℚ) ×
      Option (List ℚ) × Option (List ℚ)))
    (t : List ℚ × List ℚ × List ℚ × List ℚ × Option (List ℚ) ×
      Option (List ℚ) × Option (List ℚ))
    (ham : am = Except.ok t) (hM : t.2.2.1 ≠ []) (hP : t.2.2.2.1 ≠ []) :
    ∃ p, epos.set_population_tail name npl ns am = Except.ok p := by
  subst ham
  unfold epos.set_population_tail
  exact set_population_finish_ok name npl ns t hM hP

/-- The multi-planet branch succeeds whenever every supplied array has the
catalog length and the catalog is nonempty, returning nonempty reordered
arrays. -/
theorem set_population_multi_ok (sma mass ID P : List ℚ)
    (inc tag : Option (List ℚ))
    (hID : ID.length = sma.length) (hmass : mass.length = sma.length)
    (hP : P.length = sma.length)
    (hinc : ∀ l, inc = some l → l.length = sma.length)
    (htag : ∀ l, tag = some l → l.length = sma.length)
    (hn : 0 < sma.length) :
    ∃ t, epos.set_population_multi sma mass ID P inc tag = Except.ok t ∧
      t.2.2.1 ≠ [] ∧ t.2.2.2.1 ≠ [] := by
  have hperm : (np_lexsort sma ID).Perm (List.range ID.length) :=
    List.perm_insertionSort _ _
  have hmemlt : ∀ i ∈ np_lexsort sma ID, i < sma.length := by
    intro i hi
    have := List.mem_range.mp (hperm.mem_iff.mp hi)
    omega
  have hordlen : (np_lexsort sma ID).length = sma.length := by
    rw [hperm.length_eq, List.length_range, hID]
  have hordne : np_lexsort sma ID ≠ [] := by
    intro h
    rw [h] at hordlen
    simp only [List.length_nil] at hordlen
    omega
  have hmapne : ∀ f : ℕ → ℚ, (np_lexsort sma ID).map f ≠ [] := by
    intro f h
    exact hordne (List.map_eq_nil.mp h)
  unfold epos.set_population_multi
  rw [if_pos hID.symm]
  try dsimp only
  rw [fancyIndex_eq_some ID _ (by intro i hi; rw [hID]; exact hmemlt i hi)]
  rw [fancyIndex_eq_some sma _ hmemlt]
  rw [fancyIndex_eq_some mass _ (by intro i hi; rw [hmass]; exact hmemlt i hi)]
  rw [fancyIndex_eq_some P _ (by intro i hi; rw [hP]; exact hmemlt i hi)]
  cases inc with
  | none =>
    cases tag with
    | none => exact ⟨_, rfl, hmapne _, hmapne _⟩
    | some lt =>
      rw [show popReindex (np_lexsort sma ID) (some lt) =
          Except.ok (some ((np_lexsort sma ID).map fun i => lt.getD i 0)) from by
        unfold popReindex
        try dsimp only
        rw [fancyIndex_eq_some lt _ (by
          intro i hi; rw [htag lt rfl]; exact hmemlt i hi)]]
      exact ⟨_, rfl, hmapne _, hmapne _⟩
  | some li =>
    rw [show popReindex (np_lexsort sma ID) (some li) =
        Except.ok (some ((np_lexsort sma ID).map fun i => li.getD i 0)) from by
      unfold popReindex
      try dsimp only
      rw [fancyIndex_eq_some li _ (by
        intro i hi; rw [hinc li rfl]; exact hmemlt i hi)]]
    cases tag with
    | none => exact ⟨_, rfl, hmapne _, hmapne _⟩
    | some lt =>
      rw [show popReindex (np_lexsort sma ID) (some lt) =
          Except.ok (some ((np_lexsort sma ID).map fun i => lt.getD i 0)) from by
        unfold popReindex
        try dsimp only
        rw [fancyIndex_eq_some lt _ (by
          intro i hi; rw [htag lt rfl]; exact hmemlt i hi)]]
      exact ⟨_, rfl, hmapne _, hmapne _⟩

/-- Claim C8 (amended): the only length relation `set_population` validates
is `len(sma) = len(mass)`.  The length-check `ValueError` is raised exactly
when those two disagree; when every supplied array has the same nonzero
length the call succeeds.  A mismatched starID/inc/tag length does not
trigger the length failure (see the counterexample). -/
theorem C8_amended_length_check (pow15 : ℚ → ℚ) (name : String)
    (sma mass : List ℚ) (inc starID tag : Option (List ℚ)) :
    (sma.length ≠ mass.length →
      epos.set_population pow15 false name sma mass inc starID tag =
        Except.error PopErr.inconsistentLength)
    ∧ (sma.length = mass.length →
      epos.set_population pow15 false name sma mass inc starID tag ≠
        Except.error PopErr.inconsistentLength)
    ∧ (sma ≠ [] → sma.length = mass.length →
        (∀ l, starID = some l → l.length = sma.length) →
        (∀ l, inc = some l → l.length = sma.length) →
        (∀ l, tag = some l → l.length = sma.length) →
        ∃ p, epos.set_population pow15 false name sma mass inc starID tag =
          Except.ok p) := by
  refine ⟨?_, ?_, ?_⟩
  · intro hne
    unfold epos.set_population
    simp only [Bool.false_eq_true, if_false]
    rw [if_pos hne]
  · intro hlen
    unfold epos.set_population
    simp only [Bool.false_eq_true, if_false]
    rw [if_neg (by omega : ¬ sma.length ≠ mass.length)]
    refine set_population_tail_ne name _ _ _ ?_
    intro e ham hbad
    subst hbad
    by_cases hc : (match starID with
        | none => (List.range sma.length).map (fun (i : ℕ) => (i : ℚ))
        | some l => l).length >
        (match starID with
        | none => (List.range sma.length).map (fun (i : ℕ) => (i : ℚ))
        | some l => l).dedup.length
    · rw [if_pos hc] at ham
      rcases set_population_multi_error_shape _ _ _ _ _ _ _ ham with h | h <;>
        simp at h
    · rw [if_neg hc] at ham
      simp at ham
  · intro hnil hlen hsid hinc htag
    unfold epos.set_population
    simp only [Bool.false_eq_true, if_false]
    rw [if_neg (by omega : ¬ sma.length ≠ mass.length)]
    have hn : 0 < sma.length := List.length_pos.mpr hnil
    cases starID with
    | none =>
      try dsimp only
      by_cases hc : ((List.range sma.length).map fun (i : ℕ) => (i : ℚ)).length >
          ((List.range sma.length).map fun (i : ℕ) => (i : ℚ)).dedup.length
      · obtain ⟨t, ht, hM, hPne⟩ := set_population_multi_ok sma mass
          ((List.range sma.length).map fun (i : ℕ) => (i : ℚ))
          (sma.map fun s => pow15 s * (1461 / 4)) inc tag
          (by rw [List.length_map, List.length_range]) hlen.symm
          (by simp) hinc htag hn
        exact set_population_tail_ok name _ _ _ t (by rw [if_pos hc, ht]) hM hPne
      · refine set_population_tail_ok name _ _ _
          (((List.range sma.length).map fun (i : ℕ) => (i : ℚ)), sma, mass,
            sma.map fun s => pow15 s * (1461 / 4), inc, tag, none)
          (by rw [if_neg hc]) ?_ ?_
        · intro h
          have h0 : mass = [] := h
          rw [h0] at hlen
          have hz : sma.length = 0 := by simpa using hlen
          omega
        · intro h
          have h0 : sma.map (fun s => pow15 s * (1461 / 4)) = [] := h
          exact hnil (List.map_eq_nil_iff.mp h0)
    | some sl =>
      try dsimp only
      by_cases hc : sl.length > sl.dedup.length
      · obtain ⟨t, ht, hM, hPne⟩ := set_population_multi_ok sma mass sl
          (sma.map fun s => pow15 s * (1461 / 4)) inc tag
          (hsid sl rfl) hlen.symm (by simp) hinc htag hn
        exact set_population_tail_ok name _ _ _ t (by rw [if_pos hc, ht]) hM hPne
      · refine set_population_tail_ok name _ _ _
          (sl, sma, mass, sma.map fun s => pow15 s * (1461 / 4), inc, tag, none)
          (by rw [if_neg hc]) ?_ ?_
        · intro h
          have h0 : mass = [] := h
          rw [h0] at hlen
          have hz : sma.length = 0 := by simpa using hlen
          omega
        · intro h
          have h0 : sma.map (fun s => pow15 s * (1461 / 4)) = [] := h
          exact hnil (List.map_eq_nil_iff.mp h0)

/-- The catalog actually stored by the C8 counterexample call. -/
def pfmC8 : PFM :=
  { name := "model"
    sma := [1, 2]
    M := [1, 2]
    ID := [5, 6, 7]
    tag := none
    inc := none
    P := [1461 / 4, 1461 / 2]
    npl := 3
    ns := 3
    dP := none
    Mlimits := (1, 2)
    Plimits := (1461 / 4, 1461 / 2) }

/-- Claim C8 counterexample: a starID array of length 3 supplied with sma and
mass of length 2 is accepted without any failure — `set_population` does not
validate the starID length, contradicting the claim that any length
disagreement among sma/mass/starID/inc/tag raises the inconsistent-catalog
failure. -/
theorem C8_counterexample :
    (([1, 2] : List ℚ).length ≠ ([5, 6, 7] : List ℚ).length)
    ∧ epos.set_population (fun s => s) false "model" [1, 2] [1, 2] none
        (some [5, 6, 7]) none = Except.ok pfmC8 :=
  ⟨by decide, by decide⟩

/-- Reading a list back through `getD` over its index range reproduces its
sum. -/
theorem sum_range_getD (r : List ℚ) :
    ((List.range r.length).map fun j => r.getD j 0).sum = r.sum := by
  induction r with
  | nil => simp
  | cons x t ih =>
    rw [List.length_cons, List.range_succ_eq_map, List.map_cons, List.map_map]
    have hfun : ((fun j => (x :: t).getD j 0) ∘ Nat.succ) =
        fun j => t.getD j 0 := by
      funext j
      simp [Function.comp, List.getD_cons_succ]
    rw [hfun, List.sum_cons, List.getD_cons_zero, ih, List.sum_cons]

/-- Column sums of a rectangular matrix add up to the matrix sum. -/
theorem sum_colsums (n : ℕ) (M : List (List ℚ)) (h : ∀ r ∈ M, r.length = n) :
    ((List.range n).map fun j => (M.map fun r => r.getD j 0).sum).sum =
      matSum M := by
  induction M with
  | nil =>
    simp only [List.map_nil, List.sum_nil]
    rw [List.map_const']
    simp [matSum]
  | cons r0 Mt ih =>
    have h0 : r0.length = n := h r0 (List.mem_cons_self r0 Mt)
    have hrest : ∀ r ∈ Mt, r.length = n :=
      fun r hr => h r (List.mem_cons_of_mem r0 hr)
    have hsplit : ((List.range n).map fun j =>
        ((r0 :: Mt).map fun r => r.getD j 0).sum) =
        (List.range n).map fun j =>
          r0.getD j 0 + (Mt.map fun r => r.getD j 0).sum := by
      apply List.map_congr_left
      intro j _
      simp
    rw [hsplit, List.sum_map_add]
    rw [← h0, sum_range_getD, h0, ih hrest]
    simp [matSum]

/-- GetD through a zero-preserving map. -/
theorem getD_map_zero (g : ℚ → ℚ) (hg : g 0 = 0) (r : List ℚ) (j : ℕ) :
    (r.map g).getD j 0 = g (r.getD j 0) := by
  rw [List.getD_eq_getElem?_getD, List.getD_eq_getElem?_getD,
    List.getElem?_map]
  cases hr : r[j]? with
  | none => simp [hg]
  | some v => simp

/-- `headD` through a map of a nonempty list. -/
theorem headD_map_ne_nil (M : List (List ℚ)) (f : List ℚ → List ℚ)
    (hM : M ≠ []) : (M.map f).headD [] = f (M.headD []) := by
  cases M with
  | nil => exact absurd rfl hM
  | cons m0 t => rfl

/-- The default head of a nonempty list is a member. -/
theorem headD_mem_ne_nil (M : List (List ℚ)) (hM : M ≠ []) :
    M.headD [] ∈ M := by
  cases M with
  | nil => exact absurd rfl hM
  | cons m0 t => exact List.mem_cons_self _ _

/-- Joint-density half of the grid-coincidence property: when the custom
grids handed to `periodradius` are exactly the working grids, the returned
`pps` and joint density agree with the default path, for arbitrary cached
scale factors (hence under either log-area setting). -/
theorem periodradius_grid_coincide_joint (rf : RealFuns) (fp : fitparameters)
    (func : List (List ℚ) → List (List ℚ) → List ℚ → List (List ℚ))
    (MCx MCy : List ℚ) (sc sx siy : ℚ) (Init : Bool) (pps : ℚ)
    (f2d : List ℚ)
    (hpps : fp.get "pps" Init = some pps)
    (h2d : fp.get2d Init = some f2d) :
    (periodradius rf ⟨fp, func, (npMeshgrid MCx MCy).1, (npMeshgrid MCx MCy).2,
        MCx, MCy, sc, sx, siy⟩ Init none none none
        (some MCx) (some MCy)).map (fun r => (r.1, r.2.1)) =
      (periodradius rf ⟨fp, func, (npMeshgrid MCx MCy).1, (npMeshgrid MCx MCy).2,
        MCx, MCy, sc, sx, siy⟩ Init none none none
        none none).map (fun r => (r.1, r.2.1)) := by
  unfold periodradius
  dsimp only
  rw [hpps, h2d]
  dsimp only
  rfl

/-- Full grid-coincidence property: when the cached scale factors carry the
natural-log area normalization (the `LogArea=False` form), the custom-grid
path invoked with the working grids returns exactly the default path's
result, marginals included, for any rectangular density evaluation. -/
theorem periodradius_grid_coincide_full (rf : RealFuns) (fp : fitparameters)
    (func : List (List ℚ) → List (List ℚ) → List ℚ → List (List ℚ))
    (MCx MCy : List ℚ) (scale_x scale_y : ℚ) (Init : Bool) (pps : ℚ)
    (f2d : List ℚ)
    (hpps : fp.get "pps" Init = some pps)
    (h2d : fp.get2d Init = some f2d)
    (hsx : scale_x = (MCx.length : ℚ) / rf.ln (MCx.getLastD 0 / MCx.headD 0))
    (hsy : scale_y = (MCy.length : ℚ) / rf.ln (MCy.getLastD 0 / MCy.headD 0))
    (hLx : rf.ln (MCx.getLastD 0 / MCx.headD 0) ≠ 0)
    (hLy : rf.ln (MCy.getLastD 0 / MCy.headD 0) ≠ 0)
    (hMx : MCx ≠ []) (hMy : MCy ≠ [])
    (hlen : (func (npMeshgrid MCx MCy).1 (npMeshgrid MCx MCy).2 f2d).length =
      MCx.length)
    (hrect : ∀ r ∈ func (npMeshgrid MCx MCy).1 (npMeshgrid MCx MCy).2 f2d,
      r.length = MCy.length) :
    (periodradius rf ⟨fp, func, (npMeshgrid MCx MCy).1, (npMeshgrid MCx MCy).2,
        MCx, MCy, scale_x * scale_y, scale_x, scale_y⟩ Init none none none
        (some MCx) (some MCy)) =
      (periodradius rf ⟨fp, func, (npMeshgrid MCx MCy).1, (npMeshgrid MCx MCy).2,
        MCx, MCy, scale_x * scale_y, scale_x, scale_y⟩ Init none none none
        none none) := by
  have hnx : (MCx.length : ℚ) ≠ 0 := by
    simpa using fun h => hMx (List.length_eq_zero.mp h)
  have hny : (MCy.length : ℚ) ≠ 0 := by
    simpa using fun h => hMy (List.length_eq_zero.mp h)
  unfold periodradius
  dsimp only
  rw [hpps, h2d]
  dsimp only
  simp only [Option.isSome_some, Option.isSome_none, Bool.or_self,
    eq_self_iff_true, Bool.false_eq_true, if_true, if_false, Option.getD_some]
  set M := func (npMeshgrid MCx MCy).1 (npMeshgrid MCx MCy).2 f2d with hMdef
  set Lx := rf.ln (MCx.getLastD 0 / MCx.headD 0) with hLxdef
  set Ly := rf.ln (MCy.getLastD 0 / MCy.headD 0) with hLydef
  have hMne : M ≠ [] := by
    intro h
    rw [h] at hlen
    simp only [List.length_nil] at hlen
    exact hMx (List.length_eq_zero.mp hlen.symm)
  have hg0 : pps * 0 / matSum M * (scale_x * scale_y) = 0 := by ring
  have hS1 : (npSumAxis1 M).sum = matSum M := rfl
  have hheadlen : (M.headD []).length = MCy.length :=
    hrect _ (headD_mem_ne_nil M hMne)
  have hrect' : ∀ r ∈ M, r.length = (M.headD []).length := by
    intro r hr
    rw [hheadlen]
    exact hrect r hr
  have hS0 : (npSumAxis0 M).sum = matSum M := by
    unfold npSumAxis0
    exact sum_colsums _ M hrect'
  congr 1
  refine Prod.ext rfl (Prod.ext rfl (Prod.ext ?_ ?_))
  · show (npAverageAxis1 (M.map fun row => row.map fun v =>
        pps * v / matSum M * (scale_x * scale_y))).map (· * Ly) =
      (npSumAxis1 M).map fun v => pps * v / (npSumAxis1 M).sum * scale_x
    rw [hS1]
    unfold npAverageAxis1 npSumAxis1
    simp only [List.map_map]
    apply List.map_congr_left
    intro r hr
    simp only [Function.comp_apply]
    have hmapg : r.map (fun v => pps * v / matSum M * (scale_x * scale_y)) =
        r.map fun v => (pps * (scale_x * scale_y) / matSum M) * v :=
      List.map_congr_left fun v _ => by ring
    rw [hmapg, sum_map_mul, List.length_map, hrect r hr]
    have hsy0 : scale_y ≠ 0 := by
      rw [hsy]
      exact div_ne_zero hny hLy
    have key : ∀ a : ℚ, a / (MCy.length : ℚ) * Ly = a / scale_y := by
      intro a
      rw [hsy, div_div_eq_mul_div, div_mul_eq_mul_div]
    rw [key]
    calc pps * (scale_x * scale_y) / matSum M * r.sum / scale_y
        = pps * r.sum / matSum M * scale_x * (scale_y / scale_y) := by ring
      _ = pps * r.sum / matSum M * scale_x := by rw [div_self hsy0, mul_one]
  · show (npAverageAxis0 (M.map fun row => row.map fun v =>
        pps * v / matSum M * (scale_x * scale_y))).map (· * Lx) =
      (npSumAxis0 M).map fun v => pps * v / (npSumAxis0 M).sum * scale_y
    rw [hS0]
    unfold npAverageAxis0 npSumAxis0
    rw [headD_map_ne_nil M _ hMne]
    simp only [List.length_map, List.map_map]
    apply List.map_congr_left
    intro j hj
    simp only [Function.comp_apply]
    have hcol : M.map ((fun r => r.getD j 0) ∘ fun row =>
        row.map fun v => pps * v / matSum M * (scale_x * scale_y)) =
        M.map fun row =>
          (pps * (scale_x * scale_y) / matSum M) * row.getD j 0 := by
      apply List.map_congr_left
      intro r hr
      simp only [Function.comp_apply]
      rw [getD_map_zero _ hg0 r j]
      ring
    rw [hcol,
      List.sum_map_mul_left M (fun r => r.getD j 0)
        (pps * (scale_x * scale_y) / matSum M), hlen]
    have hsx0 : scale_x ≠ 0 := by
      rw [hsx]
      exact div_ne_zero hnx hLx
    have key : ∀ a : ℚ, a / (MCx.length : ℚ) * Lx = a / scale_x := by
      intro a
      rw [hsx, div_div_eq_mul_div, div_mul_eq_mul_div]
    rw [key]
    calc pps * (scale_x * scale_y) / matSum M *
          (List.map (fun r => r.getD j 0) M).sum / scale_x
        = pps * (List.map (fun r => r.getD j 0) M).sum / matSum M * scale_y *
            (scale_x / scale_x) := by ring
      _ = pps * (List.map (fun r => r.getD j 0) M).sum / matSum M * scale_y :=
          by rw [div_self hsx0, mul_one]

/-- Claim C2 (amended): with the custom grids equal to the working grids
`MC_xvar`/`MC_yvar` produced by `set_ranges`, the custom-grid path of
`periodradius` returns the same `pps` and the same joint density as the
default path under BOTH log-area settings; and when `LogArea=False` (so the
stored scale factors use the natural log, matching the `np.log` always used
for `dlnx`/`dlny`) the full results, marginal densities included, coincide.
Under `LogArea=True` the marginals differ (see the counterexample): the
custom-path marginals carry `np.log` spans against `np.log10` scale
factors. -/
theorem C2_amended_grid_paths (rf : RealFuns) (LogArea : Bool)
    (eff_xvar eff_yvar : List ℚ) (eff_2D : List (List ℚ))
    (eff_xlim eff_ylim : ℚ × ℚ) (xtrim ytrim xzoom yzoom : Option (ℚ × ℚ))
    (st : RangeState) (fp : fitparameters)
    (func : List (List ℚ) → List (List ℚ) → List ℚ → List (List ℚ))
    (Init : Bool) (pps : ℚ) (f2d : List ℚ)
    (hst : epos.set_ranges rf false true true eff_xvar eff_yvar eff_2D
      eff_xlim eff_ylim xtrim ytrim xzoom yzoom LogArea = Except.ok st)
    (hpps : fp.get "pps" Init = some pps)
    (h2d : fp.get2d Init = some f2d)
    (hLx : rf.ln (st.MC_xvar.getLastD 0 / st.MC_xvar.headD 0) ≠ 0)
    (hLy : rf.ln (st.MC_yvar.getLastD 0 / st.MC_yvar.headD 0) ≠ 0)
    (hMx : st.MC_xvar ≠ []) (hMy : st.MC_yvar ≠ [])
    (hlen : (func st.X_in st.Y_in f2d).length = st.MC_xvar.length)
    (hrect : ∀ r ∈ func st.X_in st.Y_in f2d, r.length = st.MC_yvar.length) :
    ((periodradius rf ⟨fp, func, st.X_in, st.Y_in, st.MC_xvar, st.MC_yvar,
        st.scale, st.scale_x, st.scale_in_y⟩ Init none none none
        (some st.MC_xvar) (some st.MC_yvar)).map (fun r => (r.1, r.2.1)) =
      (periodradius rf ⟨fp, func, st.X_in, st.Y_in, st.MC_xvar, st.MC_yvar,
        st.scale, st.scale_x, st.scale_in_y⟩ Init none none none
        none none).map (fun r => (r.1, r.2.1)))
    ∧ (LogArea = false →
      periodradius rf ⟨fp, func, st.X_in, st.Y_in, st.MC_xvar, st.MC_yvar,
        st.scale, st.scale_x, st.scale_in_y⟩ Init none none none
        (some st.MC_xvar) (some st.MC_yvar) =
      periodradius rf ⟨fp, func, st.X_in, st.Y_in, st.MC_xvar, st.MC_yvar,
        st.scale, st.scale_x, st.scale_in_y⟩ Init none none none
        none none) := by
  have hcore : st = set_ranges_core rf eff_xvar eff_yvar eff_2D eff_xlim
      eff_ylim xtrim ytrim xzoom yzoom LogArea := by
    unfold epos.set_ranges at hst
    split at hst
    · exact absurd hst (by simp)
    · split at hst
      · exact absurd hst (by simp)
      · exact (Except.ok.injEq _ _ ▸ hst).symm
  have hXin : st.X_in = (npMeshgrid st.MC_xvar st.MC_yvar).1 := by
    rw [hcore]
    rfl
  have hYin : st.Y_in = (npMeshgrid st.MC_xvar st.MC_yvar).2 := by
    rw [hcore]
    rfl
  have hscale : st.scale = st.scale_x * st.scale_y := by
    rw [hcore]
    rfl
  have hsiny : st.scale_in_y = st.scale_y := by
    rw [hcore]
    rfl
  constructor
  · rw [hXin, hYin]
    exact periodradius_grid_coincide_joint rf fp func st.MC_xvar st.MC_yvar
      st.scale st.scale_x st.scale_in_y Init pps f2d hpps h2d
  · intro hLA
    subst hLA
    have hsx : st.scale_x = (st.MC_xvar.length : ℚ) /
        rf.ln (st.MC_xvar.getLastD 0 / st.MC_xvar.headD 0) := by
      rw [hcore]
      rfl
    have hsy : st.scale_y = (st.MC_yvar.length : ℚ) /
        rf.ln (st.MC_yvar.getLastD 0 / st.MC_yvar.headD 0) := by
      rw [hcore]
      rfl
    rw [hXin, hYin] at hlen hrect
    rw [hXin, hYin, hscale, hsiny]
    exact periodradius_grid_coincide_full rf fp func st.MC_xvar st.MC_yvar
      st.scale_x st.scale_y Init pps f2d hpps h2d hsx hsy hLx hLy hMx hMy
      hlen hrect

/-- Concrete numerics record for the C2 configurations: `ln 10` is set to a
nonzero rational stand-in (deliberately different from `log10 10 = 1`, as
the real logs differ by the factor ln 10). -/
def rfC2 : RealFuns :=
  { ln := fun q => if q = 10 then 23 / 10 else 1
    log10 := fun q => if q = 10 then 1 else 0
    logspace5 := fun a _ => [a, a, a, a, a] }

/-- Concrete registry for the C2 configurations: fixed "pps" = 1, no 2D
keys. -/
def fpC2 : fitparameters := fitparameters.empty.add "pps" 1 true 0 0 none false

/-- Constant density function for the C2 configurations. -/
def funcC2 : List (List ℚ) → List (List ℚ) → List ℚ → List (List ℚ) :=
  fun X _ _ => X.map fun row => row.map fun _ => 1

/-- Range state of the C2 witness: working grids `[1, 10] × [1, 10]`,
`LogArea=False`. -/
def stC2 : RangeState :=
  set_ranges_core rfC2 [1, 10] [1, 10] [[1, 1], [1, 1]] (1, 10) (1, 10)
    none none none none false

/-- Claim C2 witness: on the concrete `LogArea=False` configuration the
custom-grid path at the working grids agrees with the default path, joint
and marginals alike. -/
theorem C2_witness :
    (epos.set_ranges rfC2 false true true [1, 10] [1, 10] [[1, 1], [1, 1]]
        (1, 10) (1, 10) none none none none false = Except.ok stC2
      ∧ fitparameters.get fpC2 "pps" true = some 1
      ∧ fitparameters.get2d fpC2 true = some []
      ∧ rfC2.ln (stC2.MC_xvar.getLastD 0 / stC2.MC_xvar.headD 0) ≠ 0
      ∧ rfC2.ln (stC2.MC_yvar.getLastD 0 / stC2.MC_yvar.headD 0) ≠ 0
      ∧ stC2.MC_xvar ≠ [] ∧ stC2.MC_yvar ≠ []
      ∧ (funcC2 stC2.X_in stC2.Y_in []).length = stC2.MC_xvar.length
      ∧ (∀ r ∈ funcC2 stC2.X_in stC2.Y_in [], r.length = stC2.MC_yvar.length))
    ∧ (((periodradius rfC2 ⟨fpC2, funcC2, stC2.X_in, stC2.Y_in, stC2.MC_xvar,
          stC2.MC_yvar, stC2.scale, stC2.scale_x, stC2.scale_in_y⟩ true
          none none none (some stC2.MC_xvar) (some stC2.MC_yvar)).map
            (fun r => (r.1, r.2.1)) =
        (periodradius rfC2 ⟨fpC2, funcC2, stC2.X_in, stC2.Y_in, stC2.MC_xvar,
          stC2.MC_yvar, stC2.scale, stC2.scale_x, stC2.scale_in_y⟩ true
          none none none none none).map (fun r => (r.1, r.2.1)))
      ∧ (false = false →
        periodradius rfC2 ⟨fpC2, funcC2, stC2.X_in, stC2.Y_in, stC2.MC_xvar,
          stC2.MC_yvar, stC2.scale, stC2.scale_x, stC2.scale_in_y⟩ true
          none none none (some stC2.MC_xvar) (some stC2.MC_yvar) =
        periodradius rfC2 ⟨fpC2, funcC2, stC2.X_in, stC2.Y_in, stC2.MC_xvar,
          stC2.MC_yvar, stC2.scale, stC2.scale_x, stC2.scale_in_y⟩ true
          none none none none none)) :=
  ⟨⟨rfl, by decide, by decide, by decide, by decide, by decide, by decide,
      by decide, by decide⟩,
    C2_amended_grid_paths rfC2 false [1, 10] [1, 10] [[1, 1], [1, 1]]
      (1, 10) (1, 10) none none none none stC2 fpC2 funcC2 true 1 []
      rfl (by decide) (by decide) (by decide) (by decide) (by decide)
      (by decide) (by decide) (by decide)⟩

/-- Range state of the C2 counterexample: the same configuration with
`LogArea=True`, so the stored scale factors use `log10` while the
custom-path spans still use `np.log`. -/
def stC2c : RangeState :=
  set_ranges_core rfC2 [1, 10] [1, 10] [[1, 1], [1, 1]] (1, 10) (1, 10)
    none none none none true

/-- Claim C2 counterexample: under `LogArea=True` the custom-grid path at
the working grids does NOT reproduce the default path: the joint densities
agree but each marginal is off by the stand-in for the factor ln 10. -/
theorem C2_counterexample :
    epos.set_ranges rfC2 false true true [1, 10] [1, 10] [[1, 1], [1, 1]]
        (1, 10) (1, 10) none none none none true = Except.ok stC2c
    ∧ periodradius rfC2 ⟨fpC2, funcC2, stC2c.X_in, stC2c.Y_in, stC2c.MC_xvar,
        stC2c.MC_yvar, stC2c.scale, stC2c.scale_x, stC2c.scale_in_y⟩ true
        none none none (some stC2c.MC_xvar) (some stC2c.MC_yvar) ≠
      periodradius rfC2 ⟨fpC2, funcC2, stC2c.X_in, stC2c.Y_in, stC2c.MC_xvar,
        stC2c.MC_yvar, stC2c.scale, stC2c.scale_x, stC2c.scale_in_y⟩ true
        none none none none none :=
  ⟨rfl, by decide⟩
